import Mathlib

/-!
Verification development for the Zynx schema-diff and migration engine.

The definitions below are a shallow embedding of the TypeScript sources:
  * `SchemaDiffer`   — src/src/core/schema-differ.ts
  * `PG` (generator) — src/src/generators/postgresql.ts and the abstract
                       base generator (BaseGenerator)
  * `ZynxManager`    — src/src/core/zynx-manager.ts, with the PostgreSQL
                       transaction semantics of the database utilities
                       (BEGIN / statements / COMMIT, ROLLBACK on failure)
                       made explicit as a state transformer, and the
                       `FileManager` utilities of src/src/core/dbml-parser.ts
                       (lines 398-852) over an in-memory directory map.

JavaScript-specific semantics are modelled explicitly:
  * optional fields are `Option`; JS `!==` on optionals is `Option` equality;
  * JS truthiness of an optional boolean / string is `truthyB` / `truthyS`
    (`undefined`, `false` and `""` are falsy);
  * a JS `Map` built by `forEach(set)` is an insertion-ordered association
    list where setting an existing key overwrites in place (`mapSet`);
  * `throw` is `Except String`;
  * the wall clock read by the header generators is an explicit `ts` argument.

String primitives are re-implemented over `List Char` so that every
definition evaluates by kernel reduction on concrete inputs.
-/

/-- Truthiness of a JS optional boolean: `undefined` and `false` are falsy. -/
def truthyB : Option Bool → Bool
  | none => false
  | some b => b

/-- Truthiness of a JS optional string: `undefined` and `""` are falsy. -/
def truthyS : Option String → Bool
  | none => false
  | some s => !(s == "")

/-- JS `a || b` for an optional string: `b` when `a` is falsy. -/
def orElseS (a : Option String) (b : String) : String :=
  match a with
  | some s => if s == "" then b else s
  | none => b

/-- Split a character list at every occurrence of `c` (JS `String.split`). -/
def charSplit (c : Char) : List Char → List (List Char)
  | [] => [[]]
  | x :: xs =>
    let r := charSplit c xs
    if x == c then [] :: r else (x :: r.headD []) :: r.tail

/-- JS `String.prototype.split` with a one-character separator. -/
def splitStr (c : Char) (s : String) : List String :=
  (charSplit c s.data).map (fun l => ⟨l⟩)

/-- Whitespace recognized by `trim` (ASCII, which is all the sources use). -/
def isSpaceChar (c : Char) : Bool :=
  c == ' ' || c == '\t' || c == '\n' || c == '\r'

/-- JS `String.prototype.trim`. -/
def trimString (s : String) : String :=
  ⟨((s.data.dropWhile isSpaceChar).reverse.dropWhile isSpaceChar).reverse⟩

/-- Lower-case a string (JS `toLowerCase`; the sources only feed it ASCII). -/
def toLowerS (s : String) : String := ⟨s.data.map Char.toLower⟩

/-- Upper-case a string (JS `toUpperCase`). -/
def toUpperS (s : String) : String := ⟨s.data.map Char.toUpper⟩

/-- Substring test on character lists. -/
def listContainsSub (pat : List Char) : List Char → Bool
  | [] => pat == []
  | c :: tl => pat.isPrefixOf (c :: tl) || listContainsSub pat tl

/-- JS `String.prototype.includes`. -/
def containsSub (s pat : String) : Bool := listContainsSub pat.data s.data

/-- JS `String.prototype.startsWith` for a string argument. -/
def startsWithS (s pat : String) : Bool := pat.data.isPrefixOf s.data

/-- JS `String.prototype.endsWith` for a string argument. -/
def endsWithS (s pat : String) : Bool := pat.data.reverse.isPrefixOf s.data.reverse

/-- JS `String.prototype.replace` with string pattern: first occurrence only. -/
def replaceFirst (s pat repl : String) : String :=
  match s.splitOn pat with
  | [] => s
  | [_] => s
  | x :: rest => x ++ repl ++ String.intercalate pat rest

/-- Join a list of strings with a separator (JS `Array.prototype.join`). -/
def joinSep (sep : String) : List String → String
  | [] => ""
  | [s] => s
  | s :: rest => s ++ sep ++ joinSep sep rest

/-- Replace every occurrence of `c` (used for the global-regex replaces). -/
def replaceAllChar (c : Char) (repl : List Char) (s : String) : String :=
  ⟨(s.data.map (fun x => if x == c then repl else [x])).flatten⟩

/-- Decimal digits of `n`, most significant first; fuel-based so that it
reduces in the kernel. -/
def natDigitsAux : Nat → Nat → List Char
  | 0, _ => []
  | fuel + 1, n =>
    if n < 10 then [Char.ofNat (48 + n)]
    else natDigitsAux fuel (n / 10) ++ [Char.ofNat (48 + n % 10)]

/-- Decimal rendering of a natural number (JS `Number.prototype.toString`). -/
def natToString (n : Nat) : String := ⟨natDigitsAux (n + 1) n⟩

/-- JS `String.prototype.padStart(4, '0')`. -/
def pad4 (n : Nat) : String :=
  let s := natToString n
  if s.data.length < 4 then ⟨List.replicate (4 - s.data.length) '0' ++ s.data⟩ else s

/-- Parse the decimal number formed by the first four characters of a
filename (JS `parseInt(filename.substring(0, 4), 10)` on a `\d{4}` match). -/
def parseNum4 (s : String) : Nat :=
  (s.data.take 4).foldl (fun a c => a * 10 + (c.toNat - 48)) 0

/-! ## JS `Map` model

A `Map` populated with `set` is an insertion-ordered association list;
setting an existing key overwrites the value in place, keeping the key's
original position; iteration yields entries in that order. -/

/-- `Map.prototype.set`. -/
def mapSet (m : List (String × α)) (k : String) (v : α) : List (String × α) :=
  if m.any (fun p => p.1 == k) then
    m.map (fun p => if p.1 == k then (k, v) else p)
  else m ++ [(k, v)]

/-- `Map.prototype.has`. -/
def mapHas (m : List (String × α)) (k : String) : Bool :=
  m.any (fun p => p.1 == k)

/-- `Map.prototype.get` (`none` = `undefined`). -/
def mapGet (m : List (String × α)) (k : String) : Option α :=
  (m.find? (fun p => p.1 == k)).map (·.2)

/-- Build a map from a list with `l.forEach(x => m.set(key x, x))`. -/
def buildMap (key : α → String) (l : List α) : List (String × α) :=
  l.foldl (fun m x => mapSet m (key x) x) []

/-! ## Schema model (src/src/types.ts)

Optional JS fields are `Option`s.  The inert `metadata` / free-text fields
that no modelled code path reads (`DBMLTable.indexes`, `DBMLIndex.note`,
`metadata` everywhere) are omitted.  The reference endpoints are named
`rfrom` / `rto` because `from` is a Lean keyword (source: `from` / `to`). -/

structure RefEndpoint where
  table : String
  column : String
deriving DecidableEq, Repr

structure DBMLRef where
  name : Option String
  rfrom : RefEndpoint
  rto : RefEndpoint
  /-- Relationship kind ("one-to-many", ...); informational only. -/
  rtype : String
  onDelete : Option String
  onUpdate : Option String
deriving DecidableEq, Repr

structure DBMLField where
  name : String
  type : String
  pk : Option Bool
  unique : Option Bool
  not_null : Option Bool
  default : Option String
  note : Option String
deriving DecidableEq, Repr

structure DBMLTable where
  name : String
  fields : List DBMLField
  note : Option String
deriving DecidableEq, Repr

structure DBMLIndex where
  name : Option String
  tableName : String
  columns : List String
  type : Option String
  unique : Option Bool
  pk : Option Bool
deriving DecidableEq, Repr

structure DatabaseSchema where
  name : Option String
  tables : List DBMLTable
  indexes : List DBMLIndex
  refs : List DBMLRef
deriving DecidableEq, Repr

/-- The `type` tag of a `SchemaChange` (schema-differ.ts). -/
inductive ChangeType where
  | create_table | drop_table | alter_table
  | create_index | drop_index
  | add_foreign_key | drop_foreign_key
deriving DecidableEq, Repr

structure SchemaChange where
  type : ChangeType
  table : Option String
  name : Option String
  sql : String
  description : String
deriving DecidableEq, Repr

/-! ## Schema differ (src/src/core/schema-differ.ts)

`compare` pushes table-structure changes, then index changes, then
foreign-key changes, in that order; it does NOT apply
`orderChangesByDependency` — only `generateAlterStatements` does. -/

namespace SchemaDiffer

/-- Field rendering used by the differ's own `CREATE TABLE` SQL
(schema-differ.ts `generateFieldSQL`; note it appends UNIQUE / NOT NULL
even for primary keys, unlike the generator's version). -/
def generateFieldSQL (field : DBMLField) : String :=
  let sql := field.name ++ " " ++ field.type
  let sql := if truthyB field.pk then sql ++ " PRIMARY KEY" else sql
  let sql := if truthyB field.unique then sql ++ " UNIQUE" else sql
  let sql := if truthyB field.not_null then sql ++ " NOT NULL" else sql
  if truthyS field.default then sql ++ " DEFAULT " ++ (field.default.getD "") else sql

/-- schema-differ.ts `generateCreateTableSQL`. -/
def generateCreateTableSQL (table : DBMLTable) : String :=
  "CREATE TABLE " ++ table.name ++ " (\n  "
    ++ joinSep ",\n  " (table.fields.map generateFieldSQL) ++ "\n);"

/-- schema-differ.ts `generateCreateIndexSQL`. -/
def generateCreateIndexSQL (index : DBMLIndex) : String :=
  let indexName := orElseS index.name ("idx_" ++ index.tableName ++ "_" ++ joinSep "_" index.columns)
  let uniq := if truthyB index.unique then "UNIQUE " else ""
  let ty := match index.type with
    | some t => if t == "" then "" else " USING " ++ t
    | none => ""
  "CREATE " ++ uniq ++ "INDEX " ++ indexName ++ " ON " ++ index.tableName ++ ty
    ++ " (" ++ joinSep ", " index.columns ++ ");"

/-- schema-differ.ts `generateAddForeignKeySQL`. -/
def generateAddForeignKeySQL (ref : DBMLRef) : String :=
  let constraintName := orElseS ref.name ("fk_" ++ ref.rfrom.table ++ "_" ++ ref.rfrom.column)
  let sql := "ALTER TABLE " ++ ref.rfrom.table ++ " ADD CONSTRAINT " ++ constraintName ++ " "
    ++ "FOREIGN KEY (" ++ ref.rfrom.column ++ ") REFERENCES " ++ ref.rto.table
    ++ "(" ++ ref.rto.column ++ ")"
  let sql := match ref.onDelete with
    | some a => if a == "" then sql else sql ++ " ON DELETE " ++ toUpperS a
    | none => sql
  let sql := match ref.onUpdate with
    | some a => if a == "" then sql else sql ++ " ON UPDATE " ++ toUpperS a
    | none => sql
  sql ++ ";"

/-- schema-differ.ts `compareFields`: attribute-by-attribute comparison of a
field present in both tables (JS `!==` on the optional attributes is
`Option` disequality). -/
def compareFields (tableName : String) (oldField newField : DBMLField) : List SchemaChange :=
  let c1 : List SchemaChange :=
    if oldField.type ≠ newField.type then
      [{ type := .alter_table, table := some tableName,
         name := some ("alter_" ++ newField.name ++ "_type"),
         sql := "ALTER TABLE " ++ tableName ++ " ALTER COLUMN " ++ newField.name
           ++ " TYPE " ++ newField.type ++ ";",
         description := "Change column '" ++ newField.name ++ "' type from "
           ++ oldField.type ++ " to " ++ newField.type }]
    else []
  let c2 : List SchemaChange :=
    if oldField.not_null ≠ newField.not_null then
      let constraint := if truthyB newField.not_null then "SET NOT NULL" else "DROP NOT NULL"
      [{ type := .alter_table, table := some tableName,
         name := some ("alter_" ++ newField.name ++ "_null"),
         sql := "ALTER TABLE " ++ tableName ++ " ALTER COLUMN " ++ newField.name
           ++ " " ++ constraint ++ ";",
         description := (if truthyB newField.not_null then "Add" else "Remove")
           ++ " NOT NULL constraint on '" ++ newField.name ++ "'" }]
    else []
  let c3 : List SchemaChange :=
    if oldField.default ≠ newField.default then
      if truthyS newField.default then
        [{ type := .alter_table, table := some tableName,
           name := some ("alter_" ++ newField.name ++ "_default"),
           sql := "ALTER TABLE " ++ tableName ++ " ALTER COLUMN " ++ newField.name
             ++ " SET DEFAULT " ++ newField.default.getD "" ++ ";",
           description := "Set default value for '" ++ newField.name ++ "' to "
             ++ newField.default.getD "" }]
      else
        [{ type := .alter_table, table := some tableName,
           name := some ("alter_" ++ newField.name ++ "_default"),
           sql := "ALTER TABLE " ++ tableName ++ " ALTER COLUMN " ++ newField.name
             ++ " DROP DEFAULT;",
           description := "Remove default value from '" ++ newField.name ++ "'" }]
    else []
  let c4 : List SchemaChange :=
    if oldField.unique ≠ newField.unique then
      if truthyB newField.unique then
        [{ type := .alter_table, table := some tableName,
           name := some ("add_unique_" ++ newField.name),
           sql := "ALTER TABLE " ++ tableName ++ " ADD CONSTRAINT uk_" ++ tableName
             ++ "_" ++ newField.name ++ " UNIQUE (" ++ newField.name ++ ");",
           description := "Add unique constraint to '" ++ newField.name ++ "'" }]
      else
        [{ type := .alter_table, table := some tableName,
           name := some ("drop_unique_" ++ newField.name),
           sql := "ALTER TABLE " ++ tableName ++ " DROP CONSTRAINT IF EXISTS uk_"
             ++ tableName ++ "_" ++ newField.name ++ ";",
           description := "Remove unique constraint from '" ++ newField.name ++ "'" }]
    else []
  c1 ++ c2 ++ c3 ++ c4

/-- schema-differ.ts `compareTableFields`: ADD COLUMN, then per-field
alterations, then DROP COLUMN. -/
def compareTableFields (oldTable newTable : DBMLTable) : List SchemaChange :=
  let oldFields := buildMap (·.name) oldTable.fields
  let newFields := buildMap (·.name) newTable.fields
  let adds := (newTable.fields.filter (fun f => !(mapHas oldFields f.name))).map
    (fun f => { type := .alter_table, table := some newTable.name,
                name := some ("add_" ++ f.name),
                sql := "ALTER TABLE " ++ newTable.name ++ " ADD COLUMN "
                  ++ generateFieldSQL f ++ ";",
                description := "Add column '" ++ f.name ++ "' to table '"
                  ++ newTable.name ++ "'" } : DBMLField → SchemaChange)
  let alters := newTable.fields.flatMap (fun f =>
    match mapGet oldFields f.name with
    | some oldF => compareFields oldTable.name oldF f
    | none => [])
  let drops := (oldTable.fields.filter (fun f => !(mapHas newFields f.name))).map
    (fun f => { type := .alter_table, table := some newTable.name,
                name := some ("drop_" ++ f.name),
                sql := "ALTER TABLE " ++ newTable.name ++ " DROP COLUMN IF EXISTS "
                  ++ f.name ++ ";",
                description := "Drop column '" ++ f.name ++ "' from table '"
                  ++ newTable.name ++ "'" } : DBMLField → SchemaChange)
  adds ++ alters ++ drops

/-- schema-differ.ts `compareTableStructure`: CREATE TABLE for tables only in
`new`, field-level changes for common tables, DROP TABLE for tables only in
`old` — pushed in that order. -/
def compareTableStructure (oldSchema newSchema : DatabaseSchema) : List SchemaChange :=
  let oldTables := buildMap (·.name) oldSchema.tables
  let newTables := buildMap (·.name) newSchema.tables
  let creates := (newSchema.tables.filter (fun t => !(mapHas oldTables t.name))).map
    (fun t => { type := .create_table, table := some t.name, name := some t.name,
                sql := generateCreateTableSQL t,
                description := "Create table '" ++ t.name ++ "'" } : DBMLTable → SchemaChange)
  let alters := newSchema.tables.flatMap (fun t =>
    match mapGet oldTables t.name with
    | some oldT => compareTableFields oldT t
    | none => [])
  let drops := (oldSchema.tables.filter (fun t => !(mapHas newTables t.name))).map
    (fun t => { type := .drop_table, table := some t.name, name := some t.name,
                sql := "DROP TABLE IF EXISTS " ++ t.name ++ ";",
                description := "Drop table '" ++ t.name ++ "'" } : DBMLTable → SchemaChange)
  creates ++ alters ++ drops

/-- The composite key of an index in the differ's index maps:
`table.(name or columns joined by _)`. -/
def indexKey (index : DBMLIndex) : String :=
  index.tableName ++ "." ++ orElseS index.name (joinSep "_" index.columns)

/-- schema-differ.ts `compareIndexes`: CREATE INDEX for new keys, DROP INDEX
for removed keys, iterating the maps in insertion order. -/
def compareIndexes (oldSchema newSchema : DatabaseSchema) : List SchemaChange :=
  let oldIndexes := buildMap indexKey oldSchema.indexes
  let newIndexes := buildMap indexKey newSchema.indexes
  let creates := (newIndexes.filter (fun p => !(mapHas oldIndexes p.1))).map
    (fun p => { type := .create_index, table := some p.2.tableName,
                name := some (orElseS p.2.name
                  ("idx_" ++ p.2.tableName ++ "_" ++ joinSep "_" p.2.columns)),
                sql := generateCreateIndexSQL p.2,
                description := "Create index on '" ++ p.2.tableName ++ "("
                  ++ joinSep ", " p.2.columns ++ ")'" } : String × DBMLIndex → SchemaChange)
  let drops := (oldIndexes.filter (fun p => !(mapHas newIndexes p.1))).map
    (fun p =>
      let indexName := orElseS p.2.name
        ("idx_" ++ p.2.tableName ++ "_" ++ joinSep "_" p.2.columns)
      { type := .drop_index, table := some p.2.tableName, name := some indexName,
        sql := "DROP INDEX IF EXISTS " ++ indexName ++ ";",
        description := "Drop index '" ++ indexName ++ "' from table '"
          ++ p.2.tableName ++ "'" } : String × DBMLIndex → SchemaChange)
  creates ++ drops

/-- The composite key of a foreign key in the differ's reference maps:
`fromTable.fromColumn->toTable.toColumn` — the `onDelete` / `onUpdate`
actions are NOT part of the key. -/
def fkKey (ref : DBMLRef) : String :=
  ref.rfrom.table ++ "." ++ ref.rfrom.column ++ "->" ++ ref.rto.table ++ "." ++ ref.rto.column

/-- schema-differ.ts `compareForeignKeys`: ADD CONSTRAINT for new keys,
DROP CONSTRAINT for removed keys. -/
def compareForeignKeys (oldSchema newSchema : DatabaseSchema) : List SchemaChange :=
  let oldRefs := buildMap fkKey oldSchema.refs
  let newRefs := buildMap fkKey newSchema.refs
  let adds := (newRefs.filter (fun p => !(mapHas oldRefs p.1))).map
    (fun p => { type := .add_foreign_key, table := some p.2.rfrom.table,
                name := some (orElseS p.2.name
                  ("fk_" ++ p.2.rfrom.table ++ "_" ++ p.2.rfrom.column)),
                sql := generateAddForeignKeySQL p.2,
                description := "Add foreign key from '" ++ p.2.rfrom.table ++ "."
                  ++ p.2.rfrom.column ++ "' to '" ++ p.2.rto.table ++ "."
                  ++ p.2.rto.column ++ "'" } : String × DBMLRef → SchemaChange)
  let drops := (oldRefs.filter (fun p => !(mapHas newRefs p.1))).map
    (fun p =>
      let constraintName := orElseS p.2.name
        ("fk_" ++ p.2.rfrom.table ++ "_" ++ p.2.rfrom.column)
      { type := .drop_foreign_key, table := some p.2.rfrom.table,
        name := some constraintName,
        sql := "ALTER TABLE " ++ p.2.rfrom.table ++ " DROP CONSTRAINT IF EXISTS "
          ++ constraintName ++ ";",
        description := "Drop foreign key '" ++ constraintName ++ "' from table '"
          ++ p.2.rfrom.table ++ "'" } : String × DBMLRef → SchemaChange)
  adds ++ drops

/-- schema-differ.ts `compare`: table changes, then index changes, then
foreign-key changes, concatenated in that order (no dependency sorting). -/
def compare (oldSchema newSchema : DatabaseSchema) : List SchemaChange :=
  compareTableStructure oldSchema newSchema
    ++ compareIndexes oldSchema newSchema
    ++ compareForeignKeys oldSchema newSchema

/-- schema-differ.ts `orderChangesByDependency`: stable bucketing into the
fixed sequence drop_foreign_key, drop_index, drop_table, create_table,
alter_table, create_index, add_foreign_key. -/
def orderChangesByDependency (changes : List SchemaChange) : List SchemaChange :=
  changes.filter (fun c => c.type == .drop_foreign_key)
    ++ changes.filter (fun c => c.type == .drop_index)
    ++ changes.filter (fun c => c.type == .drop_table)
    ++ changes.filter (fun c => c.type == .create_table)
    ++ changes.filter (fun c => c.type == .alter_table)
    ++ changes.filter (fun c => c.type == .create_index)
    ++ changes.filter (fun c => c.type == .add_foreign_key)

/-- schema-differ.ts `generateHeader`; `ts` is the wall-clock ISO timestamp
the source obtains from `new Date().toISOString()`. -/
def generateHeader (ts : String) (changeCount : Nat) : String :=
  "-- 🦎 Zynx Migration Generated: " ++ ts
    ++ "\n-- Changes: " ++ natToString changeCount
    ++ "\n-- \n-- Like an axolotl regenerating tissue, this migration will\n-- precisely transform your database schema."

/-- schema-differ.ts `generateAlterStatements`: empty string when there are
no changes, otherwise header plus the dependency-ordered changes, each
prefixed with its description comment. -/
def generateAlterStatements (ts : String) (oldSchema newSchema : DatabaseSchema) : String :=
  let changes := compare oldSchema newSchema
  if changes.length == 0 then ""
  else
    let orderedChanges := orderChangesByDependency changes
    let header := generateHeader ts changes.length
    let sqlStatements := orderedChanges.map (fun c => "-- " ++ c.description ++ "\n" ++ c.sql)
    header ++ "\n\n" ++ joinSep "\n\n" sqlStatements ++ "\n"

/-- schema-differ.ts `schemasAreEqual`. -/
def schemasAreEqual (schema1 schema2 : DatabaseSchema) : Bool :=
  (compare schema1 schema2).length == 0

end SchemaDiffer

/-! ## PostgreSQL generator (src/src/generators/postgresql.ts + BaseGenerator)

`throw` is modelled with `Except String`.  Because TypeScript dispatches
`this.isNumericType` / `this.escapeIdentifier` / `this.formatDefaultValue`
virtually, the base-class bodies below already use the PostgreSQL
overrides, exactly as they execute on a `PostgreSQLGenerator` instance. -/

namespace PG

/-- Exception-aware `Array.prototype.map` (exceptions abort the loop). -/
def mapExcept (f : α → Except String β) : List α → Except String (List β)
  | [] => .ok []
  | a :: as => do
    let b ← f a
    let bs ← mapExcept f as
    .ok (b :: bs)

/-- postgresql.ts reserved words consulted by `escapeIdentifier`. -/
def reservedWords : List String :=
  ["user", "group", "order", "table", "index", "select", "from", "where",
   "insert", "update", "delete", "create", "drop", "alter", "grant", "revoke"]

/-- postgresql.ts `escapeIdentifier`: throws on an empty identifier, quotes
only reserved words, identifiers with characters outside `[A-Za-z0-9_]`, or
identifiers starting with a digit. -/
def escapeIdentifier (identifier : String) : Except String String :=
  if identifier == "" then .error ("Invalid identifier: " ++ identifier)
  else
    let needsEscaping :=
      reservedWords.contains (toLowerS identifier)
        || identifier.data.any (fun c => !(c.isAlphanum || c == '_'))
        || (match identifier.data with
            | c :: _ => c.isDigit
            | [] => false)
    .ok (if needsEscaping then "\"" ++ identifier ++ "\"" else identifier)

/-- postgresql.ts `mapDBMLType` fixed lookup table for unparameterized types. -/
def typeMap : List (String × String) :=
  [("text", "TEXT"), ("varchar", "VARCHAR(255)"), ("char", "CHAR(1)"), ("string", "TEXT"),
   ("integer", "INTEGER"), ("int", "INTEGER"), ("bigint", "BIGINT"), ("smallint", "SMALLINT"),
   ("decimal", "DECIMAL"), ("numeric", "NUMERIC"), ("real", "REAL"),
   ("double", "DOUBLE PRECISION"), ("float", "REAL"), ("money", "MONEY"),
   ("serial", "SERIAL"), ("bigserial", "BIGSERIAL"), ("smallserial", "SMALLSERIAL"),
   ("boolean", "BOOLEAN"), ("bool", "BOOLEAN"),
   ("timestamp", "TIMESTAMP"), ("timestamptz", "TIMESTAMPTZ"), ("date", "DATE"),
   ("time", "TIME"), ("timetz", "TIMETZ"), ("interval", "INTERVAL"),
   ("uuid", "UUID"), ("json", "JSON"), ("jsonb", "JSONB"), ("array", "ARRAY"),
   ("bytea", "BYTEA"), ("inet", "INET"), ("cidr", "CIDR"), ("macaddr", "MACADDR"),
   ("point", "POINT"), ("line", "LINE"), ("lseg", "LSEG"), ("box", "BOX"),
   ("path", "PATH"), ("polygon", "POLYGON"), ("circle", "CIRCLE")]

/-- postgresql.ts `mapDBMLType`: parameterized types keep their parameters
(first `)` removed from the tail, as JS `replace` does), known aliases map
through `typeMap`, anything else is upper-cased unchanged. -/
def mapDBMLType (dbmlType : String) : String :=
  let ty := toLowerS dbmlType
  if ty.data.contains '(' then
    let parts := splitStr '(' ty
    let baseType := parts.headD ""
    let params := (parts.drop 1).headD ""
    let cleanParams := replaceFirst params ")" ""
    if baseType == "varchar" then "VARCHAR(" ++ cleanParams ++ ")"
    else if baseType == "char" then "CHAR(" ++ cleanParams ++ ")"
    else if baseType == "decimal" || baseType == "numeric" then "DECIMAL(" ++ cleanParams ++ ")"
    else toUpperS baseType ++ "(" ++ cleanParams ++ ")"
  else
    match (typeMap.find? (fun p => p.1 == ty)).map (·.2) with
    | some t => t
    | none => toUpperS ty

/-- postgresql.ts `isNumericType` (the override the instance dispatches to). -/
def isNumericType (ty : String) : Bool :=
  ["integer", "int", "int4", "bigint", "int8", "smallint", "int2",
   "decimal", "numeric", "real", "float4", "double precision", "float8",
   "money", "serial", "serial4", "bigserial", "serial8", "smallserial", "serial2"
  ].any (fun numType => containsSub (toLowerS ty) numType)

/-- BaseGenerator `formatDefaultValue` as executed on a PostgreSQL instance
(so `this.isNumericType` is the PostgreSQL override): raw-SQL sentinels pass
through, boolean-typed values normalize to TRUE/FALSE, numeric-typed values
pass through, everything else is wrapped in single quotes unless it already
starts or ends with one — embedded quotes are NOT escaped. -/
def baseFormatDefaultValue (defaultValue fieldType : String) : String :=
  if containsSub defaultValue "gen_random_uuid()"
      || containsSub defaultValue "now()"
      || containsSub defaultValue "current_timestamp" then
    defaultValue
  else if containsSub (toLowerS fieldType) "boolean" then
    (if toLowerS defaultValue == "true" then "TRUE" else "FALSE")
  else if isNumericType fieldType then defaultValue
  else if !(startsWithS defaultValue "'") && !(endsWithS defaultValue "'") then
    "'" ++ defaultValue ++ "'"
  else defaultValue

/-- postgresql.ts `formatDefaultValue`: normalizes the recognized raw-SQL
functions to a canonical spelling, special-cases jsonb/array literals, then
defers to the base-class formatting. -/
def formatDefaultValue (defaultValue fieldType : String) : String :=
  if containsSub defaultValue "gen_random_uuid()" then "gen_random_uuid()"
  else if containsSub defaultValue "now()" then "NOW()"
  else if containsSub defaultValue "current_timestamp" then "CURRENT_TIMESTAMP"
  else if containsSub (toLowerS fieldType) "jsonb" && startsWithS defaultValue "\x7b" then
    "'" ++ defaultValue ++ "'::jsonb"
  else if containsSub (toLowerS fieldType) "array" && startsWithS defaultValue "[" then
    "'" ++ defaultValue ++ "'"
  else baseFormatDefaultValue defaultValue fieldType

/-- postgresql.ts `escapeStringLiteral`: single quotes doubled (global). -/
def escapeStringLiteral (str : String) : String :=
  "'" ++ replaceAllChar '\'' ['\'', '\''] str ++ "'"

/-- BaseGenerator `generateFieldSQL` as executed on a PostgreSQL instance:
PRIMARY KEY suppresses UNIQUE and NOT NULL; a present (even empty-string)
default is formatted and appended. -/
def generateFieldSQL (field : DBMLField) : Except String String := do
  let ident ← escapeIdentifier field.name
  let sql := ident ++ " " ++ mapDBMLType field.type
  let sql := if truthyB field.pk then sql ++ " PRIMARY KEY" else sql
  let sql := if truthyB field.unique && !(truthyB field.pk) then sql ++ " UNIQUE" else sql
  let sql := if truthyB field.not_null && !(truthyB field.pk) then sql ++ " NOT NULL" else sql
  match field.default with
  | some d => .ok (sql ++ " DEFAULT " ++ formatDefaultValue d field.type)
  | none => .ok sql

/-- BaseGenerator `validateField`. -/
def validateField (tableName : String) (field : DBMLField) : Except String Unit :=
  if field.name == "" || trimString field.name == "" then
    .error ("Field name cannot be empty in table " ++ tableName)
  else if field.type == "" || trimString field.type == "" then
    .error ("Field " ++ field.name ++ " in table " ++ tableName ++ " must have a type")
  else .ok ()

/-- Duplicate-name-checking loop of BaseGenerator `validateTable`. -/
def validateTableFields (tableName : String) (seen : List String) :
    List DBMLField → Except String Unit
  | [] => .ok ()
  | f :: fs =>
    if seen.contains f.name then
      .error ("Duplicate field name in table " ++ tableName ++ ": " ++ f.name)
    else do
      validateField tableName f
      validateTableFields tableName (f.name :: seen) fs

/-- BaseGenerator `validateTable`: non-empty name, at least one field,
unique non-empty field names each with a type. -/
def validateTable (table : DBMLTable) : Except String Unit :=
  if table.name == "" || trimString table.name == "" then
    .error "Table name cannot be empty"
  else if table.fields.isEmpty then
    .error ("Table " ++ table.name ++ " must have at least one field")
  else validateTableFields table.name [] table.fields

/-- BaseGenerator `validateForeignKeys`: every reference endpoint must name
an existing table and column. -/
def validateForeignKeys (schema : DatabaseSchema) : Except String Unit :=
  validateRefs schema schema.refs
where
  validateRefs (schema : DatabaseSchema) : List DBMLRef → Except String Unit
    | [] => .ok ()
    | r :: rs =>
      let tableNames := schema.tables.map (·.name)
      if !(tableNames.contains r.rfrom.table) then
        .error ("Foreign key references non-existent table: " ++ r.rfrom.table)
      else if !(tableNames.contains r.rto.table) then
        .error ("Foreign key references non-existent table: " ++ r.rto.table)
      else if !(match schema.tables.find? (fun t => t.name == r.rfrom.table) with
                | some t => t.fields.any (fun f => f.name == r.rfrom.column)
                | none => false) then
        .error ("Foreign key references non-existent column: "
          ++ r.rfrom.table ++ "." ++ r.rfrom.column)
      else if !(match schema.tables.find? (fun t => t.name == r.rto.table) with
                | some t => t.fields.any (fun f => f.name == r.rto.column)
                | none => false) then
        .error ("Foreign key references non-existent column: "
          ++ r.rto.table ++ "." ++ r.rto.column)
      else validateRefs schema rs

/-- Duplicate-table-name loop of BaseGenerator `validateSchema`. -/
def validateSchemaTables (seen : List String) : List DBMLTable → Except String Unit
  | [] => .ok ()
  | t :: ts =>
    if seen.contains t.name then .error ("Duplicate table name: " ++ t.name)
    else do
      validateTable t
      validateSchemaTables (t.name :: seen) ts

/-- BaseGenerator `validateSchema`: unique table names, per-table checks,
foreign-key existence checks.  NOTE: nothing in the sources calls this —
`generateCompleteSchema` renders without it. -/
def validateSchema (schema : DatabaseSchema) : Except String Unit := do
  if schema.tables.isEmpty then .error "Schema must contain at least one table"
  else do
    validateSchemaTables [] schema.tables
    validateForeignKeys schema

/-- PostgreSQL override of `generateTableComment` (note rendered through
`escapeStringLiteral`). -/
def generateTableComment (table : DBMLTable) : Except String (Option String) :=
  if truthyS table.note then do
    let i ← escapeIdentifier table.name
    .ok (some ("COMMENT ON TABLE " ++ i ++ " IS "
      ++ escapeStringLiteral (table.note.getD "") ++ ";"))
  else .ok none

/-- PostgreSQL override of `generateColumnComment`. -/
def generateColumnComment (tableName : String) (field : DBMLField) :
    Except String (Option String) :=
  if truthyS field.note then do
    let t ← escapeIdentifier tableName
    let f ← escapeIdentifier field.name
    .ok (some ("COMMENT ON COLUMN " ++ t ++ "." ++ f ++ " IS "
      ++ escapeStringLiteral (field.note.getD "") ++ ";"))
  else .ok none

/-- postgresql.ts `generateCreateTable`: per-table validation, then columns
in declared order, then optional table/column comments. -/
def generateCreateTable (table : DBMLTable) : Except String String := do
  validateTable table
  let fields ← mapExcept generateFieldSQL table.fields
  let tn ← escapeIdentifier table.name
  let sql := "CREATE TABLE " ++ tn ++ " (\n  " ++ joinSep ",\n  " fields ++ "\n);"
  let tc ← generateTableComment table
  let sql := match tc with
    | some c => sql ++ "\n\n" ++ c
    | none => sql
  let ccs ← mapExcept (generateColumnComment table.name) table.fields
  let columnComments := ccs.filterMap id
  .ok (if columnComments.isEmpty then sql
       else sql ++ "\n\n" ++ joinSep "\n" columnComments)

/-- postgresql.ts `generateCreateIndex`. -/
def generateCreateIndex (index : DBMLIndex) : Except String String := do
  let indexName := orElseS index.name
    ("idx_" ++ index.tableName ++ "_" ++ joinSep "_" index.columns)
  let uniq := if truthyB index.unique then "UNIQUE " else ""
  let method := match index.type with
    | some t => if t == "" then "" else " USING " ++ t
    | none => ""
  let en ← escapeIdentifier indexName
  let tn ← escapeIdentifier index.tableName
  let cols ← mapExcept escapeIdentifier index.columns
  .ok ("CREATE " ++ uniq ++ "INDEX " ++ en ++ " ON " ++ tn ++ method
    ++ " (" ++ joinSep ", " cols ++ ");")

/-- postgresql.ts `generateAddForeignKey` (`.replace(' ', ' ')` in the
source is the identity and is dropped). -/
def generateAddForeignKey (ref : DBMLRef) : Except String String := do
  let constraintName := orElseS ref.name ("fk_" ++ ref.rfrom.table ++ "_" ++ ref.rfrom.column)
  let ft ← escapeIdentifier ref.rfrom.table
  let cn ← escapeIdentifier constraintName
  let fc ← escapeIdentifier ref.rfrom.column
  let tt ← escapeIdentifier ref.rto.table
  let tc ← escapeIdentifier ref.rto.column
  let sql := "ALTER TABLE " ++ ft ++ " ADD CONSTRAINT " ++ cn ++ " "
    ++ "FOREIGN KEY (" ++ fc ++ ") REFERENCES " ++ tt ++ "(" ++ tc ++ ")"
  let sql := match ref.onDelete with
    | some a => if a == "" then sql else sql ++ " ON DELETE " ++ toUpperS a
    | none => sql
  let sql := match ref.onUpdate with
    | some a => if a == "" then sql else sql ++ " ON UPDATE " ++ toUpperS a
    | none => sql
  .ok (sql ++ ";")

/-- postgresql.ts `generateSetup`: extension preamble when uuid types or
`gen_random_uuid()` defaults occur. -/
def generateSetup (schema : DatabaseSchema) : Option String :=
  let needsUuidExtension := schema.tables.any (fun t => t.fields.any (fun f =>
    containsSub (toLowerS f.type) "uuid"
      || (match f.default with
          | some d => containsSub d "gen_random_uuid()"
          | none => false)))
  let needsCryptoExtension := schema.tables.any (fun t => t.fields.any (fun f =>
    match f.default with
    | some d => containsSub d "gen_random_uuid()"
    | none => false))
  let setup : List String :=
    (if needsUuidExtension then
      ["-- Enable UUID extension", "CREATE EXTENSION IF NOT EXISTS \"uuid-ossp\";"]
     else [])
    ++ (if needsCryptoExtension then
      ["-- Enable pgcrypto extension for gen_random_uuid()",
       "CREATE EXTENSION IF NOT EXISTS \"pgcrypto\";"]
     else [])
  if setup.isEmpty then none else some (joinSep "\n" setup)

/-- BaseGenerator `generateHeader`; `ts` is the wall-clock ISO timestamp. -/
def generateSchemaHeader (ts : String) (schema : DatabaseSchema) : String :=
  "-- 🦎 Zynx Generated Schema: " ++ ts
    ++ "\n-- Database: " ++ orElseS schema.name "database"
    ++ "\n-- Generator: postgresql\n-- Dialect: postgresql\n-- \n-- Like an axolotl regenerating tissue, this schema will\n-- create your database structure with perfect precision."

/-- BaseGenerator `generateCompleteSchema` as executed on a PostgreSQL
instance: header, optional setup, all tables, all indexes, all foreign
keys; blank parts filtered out, joined by blank lines.  It performs NO
schema-level validation (`validateSchema` is never invoked): the only
checks on this path are `validateTable` inside `generateCreateTable` and
the empty-identifier guard of `escapeIdentifier`. -/
def generateCompleteSchema (ts : String) (schema : DatabaseSchema) : Except String String := do
  let header := generateSchemaHeader ts schema
  let setupParts : List String := match generateSetup schema with
    | some s => [s]
    | none => []
  let tableParts ← mapExcept generateCreateTable schema.tables
  let indexParts ← mapExcept generateCreateIndex schema.indexes
  let refParts ← mapExcept generateAddForeignKey schema.refs
  let parts := [header] ++ setupParts ++ tableParts ++ indexParts ++ refParts
  .ok (joinSep "\n\n" (parts.filter (fun p => !(trimString p == ""))) ++ "\n")

/-- postgresql.ts `generateMigrationSQL`: each change's pre-rendered SQL,
joined by blank lines (the switch pushes `change.sql` for all seven kinds). -/
def generateMigrationSQL (changes : List SchemaChange) : String :=
  joinSep "\n\n" (changes.map (·.sql)) ++ "\n"

end PG

/-! ## Migration manager (src/src/core/zynx-manager.ts)

The database is a `DBState`: the ledger table plus the log of successfully
executed (committed) SQL statements, standing for their cumulative effect.
Statement execution is an oracle `ok : String → Bool` (a statement either
succeeds or raises).  `transaction` (PostgreSQLConnection.transaction)
is BEGIN / callback / COMMIT with ROLLBACK to the entry state on any
failure, so a failed migration contributes neither statements nor a ledger
row.  The `FileManager` collaborator (dbml-parser.ts:398-852) acts on an
in-memory directory: a `filename ↦ content` association list, with
`chk : String → String` standing for its `calculateChecksum`. -/

namespace ZynxManager

/-- A row of the ledger table (`number INTEGER PRIMARY KEY, filename,
checksum, applied_at`); the server-generated timestamp is not modelled. -/
structure LedgerEntry where
  number : Nat
  filename : String
  checksum : String
deriving DecidableEq, Repr

/-- Database state: ledger table plus committed statement effects. -/
structure DBState where
  ledger : List LedgerEntry
  executed : List String
deriving DecidableEq, Repr

/-- An on-disk migration file as read by `getMigrationFiles`. -/
structure MigrationFile where
  number : Nat
  filename : String
  content : String
  checksum : String
deriving DecidableEq, Repr

/-- An applied-migration status record (dates/durations not modelled). -/
structure AppliedStatus where
  number : Nat
  filename : String
  checksum : String
deriving DecidableEq, Repr

structure RunOptions where
  dryRun : Bool := false
  force : Bool := false
  target : Option Nat := none
  single : Bool := false
deriving DecidableEq, Repr

structure MigrationResult where
  success : Bool
  migrationsApplied : List AppliedStatus
  errors : List String
  currentMigration : Nat
deriving DecidableEq, Repr

/-- Stable insertion (ascending by `num`, earlier elements first on ties). -/
def sinsertBy (num : α → Nat) (x : α) : List α → List α
  | [] => [x]
  | y :: ys => if num y < num x then y :: sinsertBy num x ys else x :: y :: ys

/-- Stable ascending sort (JS `Array.prototype.sort` with `a.number - b.number`). -/
def sortByNum (num : α → Nat) (l : List α) : List α :=
  l.foldr (sinsertBy num) []

/-- The `^\d{4}\.sql$` filename filter of `getMigrationFiles`. -/
def isMigrationFilename (s : String) : Bool :=
  s.data.length == 8 && (s.data.take 4).all Char.isDigit && s.data.drop 4 == ".sql".data

/-- zynx-manager.ts `getMigrationFiles`: keep `\d{4}.sql` entries of the
directory listing, parse their numbers, read content and checksum, sort
ascending by number. -/
def getMigrationFiles (chk : String → String) (raw : List (String × String)) :
    List MigrationFile :=
  sortByNum (·.number)
    ((raw.filter (fun p => isMigrationFilename p.1)).map
      (fun p => ⟨parseNum4 p.1, p.1, p.2, chk p.2⟩))

/-- zynx-manager.ts `getCurrentMigration`: `SELECT MAX(number)` over the
ledger; an empty table yields NULL and, through `|| undefined`, a max of 0
also becomes `undefined`. -/
def getCurrentMigration (st : DBState) : Option Nat :=
  let m := st.ledger.foldl (fun a e => max a e.number) 0
  if m == 0 then none else some m

/-- The statement list of one migration file:
`content.split(';').filter(stmt => stmt.trim())`. -/
def migrationStatements (content : String) : List String :=
  (splitStr ';' content).filter (fun s => !(trimString s == ""))

/-- Execute statements sequentially inside an open transaction; on the
first failing statement, return the partially-advanced state together with
the failing statement. -/
def execStmts (ok : String → Bool) (st : DBState) : List String → DBState × Option String
  | [] => (st, none)
  | s :: ss =>
    if ok s then execStmts ok { st with executed := st.executed ++ [s] } ss
    else (st, some s)

/-- One migration under `db.transaction`: run the file's statements, then
`INSERT` the ledger row (failing on a duplicate primary-key `number`);
COMMIT on success, otherwise ROLLBACK to the entry state and surface the
error. -/
def execMigration (ok : String → Bool) (st : DBState) (m : MigrationFile) :
    DBState × Option String :=
  match execStmts ok st (migrationStatements m.content) with
  | (st1, none) =>
    if st1.ledger.any (fun e => e.number == m.number) then
      (st, some ("duplicate key value violates unique constraint: " ++ m.filename))
    else
      ({ st1 with ledger := st1.ledger ++ [⟨m.number, m.filename, m.checksum⟩] }, none)
  | (_, some s) => (st, some s)

/-- The status record pushed after a successful migration. -/
def toStatus (m : MigrationFile) : AppliedStatus :=
  ⟨m.number, m.filename, m.checksum⟩

/-- The break guard `options.target && migration.number > options.target`
(a target of 0 is falsy and imposes no cap). -/
def targetBreak (opts : RunOptions) (n : Nat) : Bool :=
  match opts.target with
  | some t => !(t == 0) && decide (t < n)
  | none => false

/-- The `for (const migration of pendingMigrations)` loop of `run`,
including its `single` / `target` break guards; a transaction failure
aborts the loop immediately, reporting the error. -/
def runLoop (ok : String → Bool) (opts : RunOptions) :
    DBState → List AppliedStatus → List MigrationFile →
    List AppliedStatus × DBState × Option String
  | st, applied, [] => (applied, st, none)
  | st, applied, m :: rest =>
    if opts.single && !applied.isEmpty then (applied, st, none)
    else if targetBreak opts m.number then (applied, st, none)
    else
      match execMigration ok st m with
      | (st', none) => runLoop ok opts st' (applied ++ [toStatus m]) rest
      | (_, some e) => (applied, st, some e)

/-- zynx-manager.ts `run`: current version from the ledger, pending =
on-disk files with `number > current`, applied in ascending order; the
catch block reports failure with the migrations that did succeed and
re-reads the ledger for the current version. -/
def run (chk : String → String) (ok : String → Bool) (st0 : DBState)
    (raw : List (String × String)) (opts : RunOptions) : MigrationResult × DBState :=
  let currentMigration := (getCurrentMigration st0).getD 0
  let migrationFiles := getMigrationFiles chk raw
  let pendingMigrations := migrationFiles.filter (fun m => currentMigration < m.number)
  if pendingMigrations.isEmpty then
    ({ success := true, migrationsApplied := [], errors := [],
       currentMigration := currentMigration }, st0)
  else if opts.dryRun then
    ({ success := true, migrationsApplied := [], errors := [],
       currentMigration := currentMigration }, st0)
  else
    match runLoop ok opts st0 [] pendingMigrations with
    | (applied, stF, none) =>
      let finalMigration := match applied.getLast? with
        | some a => a.number
        | none => currentMigration
      ({ success := true, migrationsApplied := applied, errors := [],
         currentMigration := finalMigration }, stF)
    | (applied, stF, some e) =>
      ({ success := false, migrationsApplied := applied, errors := [e],
         currentMigration := (getCurrentMigration stF).getD 0 }, stF)

/-- The consolidated status report of `getStatus` (connection health and
ledger-table existence are modelled as succeeding: the reachable-database
case the claim describes; the cosmetic `name` strip of pending entries is
not modelled). -/
structure DatabaseStatus where
  connected : Bool
  migrationsTableExists : Bool
  currentVersion : Nat
  latestVersion : Nat
  appliedMigrations : List AppliedStatus
  pendingMigrations : List AppliedStatus
deriving DecidableEq, Repr

/-- zynx-manager.ts `getStatus`: applied rows ordered by number, pending =
on-disk files whose number is not among the applied rows. -/
def getStatus (chk : String → String) (st : DBState) (raw : List (String × String)) :
    DatabaseStatus :=
  let appliedMigrations := (sortByNum (·.number) st.ledger).map
    (fun e => (⟨e.number, e.filename, e.checksum⟩ : AppliedStatus))
  let fileSystemMigrations := getMigrationFiles chk raw
  let pendingMigrations := (fileSystemMigrations.filter
    (fun m => !(appliedMigrations.any (fun am => am.number == m.number)))).map toStatus
  { connected := true, migrationsTableExists := true,
    currentVersion := (getCurrentMigration st).getD 0,
    latestVersion := fileSystemMigrations.foldl (fun a m => max a m.number) 0,
    appliedMigrations := appliedMigrations,
    pendingMigrations := pendingMigrations }

structure GenerateOptions where
  force : Bool := false
  dryRun : Bool := false
  name : Option String := none
deriving DecidableEq, Repr

structure GenerationResult where
  filename : String
  sql : String
  changes : List SchemaChange
  checksum : String
deriving DecidableEq, Repr

/-- The migrations directory managed by `FileManager`
(dbml-parser.ts:398-852), as a `filename ↦ content` map. -/
abbrev FS := List (String × String)

/-- dbml-parser.ts:458-470 `FileManager.exists` over the directory map: a
file exists exactly when the map holds its name. -/
def fsHas (fs : FS) (k : String) : Bool :=
  (fs : List (String × String)).any (fun p => p.1 == k)

/-- dbml-parser.ts:421-433 `FileManager.readFile`: return the stored
content, or throw `File not found` when the file is missing. -/
def readFile (fs : FS) (k : String) : Except String String :=
  match (fs : List (String × String)).find? (fun p => p.1 == k) with
  | some p => .ok p.2
  | none => .error ("File not found: " ++ k)

/-- dbml-parser.ts:438-453 `FileManager.writeFile`: store the content under
the name, overwriting an existing entry in place. -/
def fsWrite (fs : FS) (k v : String) : FS :=
  if fsHas fs k then
    (fs : List (String × String)).map (fun p => if p.1 == k then (k, v) else p)
  else (fs : List (String × String)) ++ [(k, v)]

/-- dbml-parser.ts:543-549 `FileManager.extractMigrationNumber`: a filename
matching `^(\d+)\.sql$` yields its parsed decimal number, anything else 0. -/
def extractMigrationNumber (filename : String) : Nat :=
  let cs := filename.data
  let stem := cs.take (cs.length - 4)
  if cs.drop (cs.length - 4) == ".sql".data && !stem.isEmpty && stem.all Char.isDigit
  then stem.foldl (fun a c => a * 10 + (c.toNat - 48)) 0
  else 0

/-- dbml-parser.ts:492-515 `FileManager.getMigrationFiles` over the
directory map: every filename ending in `.sql`, sorted ascending by
`extractMigrationNumber`. -/
def fmGetMigrationFiles (fs : FS) : List String :=
  sortByNum extractMigrationNumber
    (((fs : List (String × String)).map (·.1)).filter (fun n => endsWithS n ".sql"))

/-- dbml-parser.ts:554-570 `FileManager.getNextMigrationNumber`: 1 when no
`.sql` file, or no `.sql` file with a positive extracted number, is
present; otherwise one past the largest extracted number. -/
def getNextMigrationNumber (fs : FS) : Nat :=
  let files := fmGetMigrationFiles fs
  if files.isEmpty then 1
  else
    let numbers := (files.map extractMigrationNumber).filter (fun n => decide (0 < n))
    if numbers.isEmpty then 1
    else numbers.foldl max 0 + 1

/-- zynx-manager.ts `generateInitialSnapshot`: render the full schema as
`0001.sql` and seed both snapshot artifacts (unless `dryRun`). -/
def generateInitialSnapshot (chk : String → String) (ts : String)
    (schemaFileContent : String) (schema : DatabaseSchema) (opts : GenerateOptions)
    (fs : FS) : Except String (GenerationResult × FS) := do
  let sql ← PG.generateCompleteSchema ts schema
  if opts.dryRun then
    .ok ({ filename := "0001.sql", sql := sql, changes := [], checksum := chk sql }, fs)
  else
    let fs := fsWrite fs "0001.sql" sql
    let fs := fsWrite fs "snapshot.sql" sql
    let fs := fsWrite fs "snapshot.dbml" schemaFileContent
    .ok ({ filename := "0001.sql", sql := sql, changes := [], checksum := chk sql }, fs)

/-- zynx-manager.ts `generate`: first run produces the initial snapshot;
otherwise read the snapshot DBML (`readFile`, taken only when `exists`
holds), diff the snapshot schema against the current schema, short-circuit
with an empty result (writing nothing) when there are no changes and
`force` is unset, else write the next numbered migration and rewrite both
snapshot artifacts.  `parse` stands for `DBMLParser.parse`, `chk` for
`FileManager.calculateChecksum` (both left abstract), `ts` is the wall
clock and `schemaFileContent` the schema file's text. -/
def generate (parse : String → DatabaseSchema) (chk : String → String) (ts : String)
    (fs : FS) (schemaFileContent : String) (opts : GenerateOptions) :
    Except String (GenerationResult × FS) := do
  let currentDbml := schemaFileContent
  let currentSchema := parse currentDbml
  let snapshotExists := fsHas fs "snapshot.sql"
  if !snapshotExists && !opts.force then
    generateInitialSnapshot chk ts currentDbml currentSchema opts fs
  else
    let snapshotDbml ← if fsHas fs "snapshot.dbml"
      then readFile fs "snapshot.dbml" else .ok currentDbml
    let snapshotSchema := parse snapshotDbml
    let changes := SchemaDiffer.compare snapshotSchema currentSchema
    if changes.isEmpty && !opts.force then
      .ok ({ filename := "", sql := "", changes := [], checksum := "" }, fs)
    else
      let migrationSql := PG.generateMigrationSQL changes
      if opts.dryRun then
        .ok ({ filename := natToString (getNextMigrationNumber fs) ++ ".sql",
               sql := migrationSql, changes := changes, checksum := chk migrationSql }, fs)
      else do
        let migrationNumber := getNextMigrationNumber fs
        let filename := pad4 migrationNumber ++ ".sql"
        let fs := fsWrite fs filename migrationSql
        let completeSql ← PG.generateCompleteSchema ts currentSchema
        let fs := fsWrite fs "snapshot.dbml" currentDbml
        let fs := fsWrite fs "snapshot.sql" completeSql
        .ok ({ filename := filename, sql := migrationSql, changes := changes,
               checksum := chk migrationSql }, fs)

end ZynxManager

/-! ## Auxiliary definitions used by the statements below -/

/-- Position of a change kind in the dependency order of
`orderChangesByDependency` (spec section 4.1). -/
def rankOf : ChangeType → Nat
  | .drop_foreign_key => 0
  | .drop_index => 1
  | .drop_table => 2
  | .create_table => 3
  | .alter_table => 4
  | .create_index => 5
  | .add_foreign_key => 6

/-- Whether a change is a foreign-key change. -/
def isFkChange (c : SchemaChange) : Bool :=
  c.type == .add_foreign_key || c.type == .drop_foreign_key

/-- Whether `s` contains a reference with endpoint key `k`. -/
def fkHasKey (s : DatabaseSchema) (k : String) : Bool :=
  s.refs.any (fun r => SchemaDiffer.fkKey r == k)

/-- `s` with every reference whose endpoint key is `k` removed. -/
def dropFkRefs (k : String) (s : DatabaseSchema) : DatabaseSchema :=
  { s with refs := s.refs.filter (fun r => !(SchemaDiffer.fkKey r == k)) }

/-- The `DEFAULT ...` suffix `PG.generateFieldSQL` appends for a present
default value. -/
def PG.defaultClause (f : DBMLField) : String :=
  match f.default with
  | some d => " DEFAULT " ++ PG.formatDefaultValue d f.type
  | none => ""

/-- Expected column rendering for a primary-key field: name, mapped type,
`PRIMARY KEY`, optional default — no `UNIQUE`, no `NOT NULL`. -/
def PG.pkRendered (f : DBMLField) : Except String String := do
  let i ← PG.escapeIdentifier f.name
  .ok (i ++ " " ++ PG.mapDBMLType f.type ++ " PRIMARY KEY" ++ PG.defaultClause f)

/-- Expected column rendering for a non-primary-key field: name, mapped
type, `UNIQUE` / `NOT NULL` exactly when the corresponding flag is truthy,
optional default. -/
def PG.nonPkRendered (f : DBMLField) : Except String String := do
  let i ← PG.escapeIdentifier f.name
  .ok (i ++ " " ++ PG.mapDBMLType f.type
    ++ (if truthyB f.unique then " UNIQUE" else "")
    ++ (if truthyB f.not_null then " NOT NULL" else "")
    ++ PG.defaultClause f)

namespace ZynxManager

/-- Iterated `execMigration` (the successful prefix of a run). -/
def applyAll (ok : String → Bool) (st : DBState) : List MigrationFile → DBState
  | [] => st
  | m :: ms => applyAll ok (execMigration ok st m).1 ms

/-- Every migration of the list commits when applied in sequence. -/
def allSucceed (ok : String → Bool) (st : DBState) : List MigrationFile → Bool
  | [] => true
  | m :: ms =>
    match execMigration ok st m with
    | (st', none) => allSucceed ok st' ms
    | (_, some _) => false

/-- The ledger row inserted for a migration file. -/
def toLedger (m : MigrationFile) : LedgerEntry :=
  ⟨m.number, m.filename, m.checksum⟩

end ZynxManager

/-! ## Concrete data for counterexamples and witnesses -/

/-- A plain field with no flags. -/
def mkField (n ty : String) : DBMLField := ⟨n, ty, none, none, none, none, none⟩

def usersTable : DBMLTable := ⟨"users", [mkField "id" "int"], none⟩

def postsTable : DBMLTable := ⟨"posts", [mkField "uid" "int"], none⟩

def extraTable : DBMLTable := ⟨"extra", [mkField "x" "int"], none⟩

/-- Foreign key posts.uid -> users.id without explicit actions. -/
def postsUsersRef : DBMLRef := ⟨none, ⟨"posts", "uid"⟩, ⟨"users", "id"⟩, "many-to-one", none, none⟩

/-- The same foreign key with `onDelete: cascade`. -/
def postsUsersRefCascade : DBMLRef :=
  ⟨none, ⟨"posts", "uid"⟩, ⟨"users", "id"⟩, "many-to-one", some "cascade", none⟩

/-- Old schema for the ordering counterexample: both tables plus the
foreign key. -/
def exSchemaOld : DatabaseSchema := ⟨none, [usersTable, postsTable], [], [postsUsersRef]⟩

/-- New schema for the ordering counterexample: the foreign key is removed
and a new table is added, so `compare` must emit both a `create_table` and
a `drop_foreign_key`. -/
def exSchemaNew : DatabaseSchema := ⟨none, [usersTable, postsTable, extraTable], [], []⟩

/-- Schema with a dangling reference: `posts` does not exist, yet the
reference names it. -/
def danglingRefSchema : DatabaseSchema := ⟨none, [usersTable], [], [postsUsersRef]⟩

/-- A valid two-table schema (used as a witness input). -/
def twoTableSchema : DatabaseSchema := ⟨none, [usersTable, postsTable], [], [postsUsersRef]⟩

/-- `twoTableSchema` with only the reference's `onDelete` action changed. -/
def twoTableSchemaCascade : DatabaseSchema :=
  ⟨none, [usersTable, postsTable], [], [postsUsersRefCascade]⟩

/-- A schema whose second table is invalid (no fields). -/
def invalidTableSchema : DatabaseSchema := ⟨none, [usersTable, ⟨"empty", [], none⟩], [], []⟩

namespace ZynxManager

/-- Ledger at version 3 (migrations 1..3 applied). -/
def ledgerAt3 : DBState :=
  ⟨[⟨1, "0001.sql", "k"⟩, ⟨2, "0002.sql", "k"⟩, ⟨3, "0003.sql", "k"⟩], ["A", "B", "C"]⟩

/-- Migrations directory with `0001.sql` .. `0005.sql` (plus the reserved
snapshot file, which `getMigrationFiles` must ignore). -/
def filesTo5 : List (String × String) :=
  [("0001.sql", "A"), ("0002.sql", "B"), ("0003.sql", "C"),
   ("0004.sql", "D"), ("0005.sql", "E"), ("snapshot.sql", "S")]

/-- Constant checksum collaborator used in concrete scenarios. -/
def chkK : String → String := fun _ => "k"

/-- Statement oracle where everything succeeds. -/
def okAll : String → Bool := fun _ => true

/-- Statement oracle where exactly the statement `" BAD "` raises. -/
def okExceptBad : String → Bool := fun s => !(trimString s == "BAD")

/-- Directory for the rollback scenario: migration 2 fails on its second
statement. -/
def filesWithBad : List (String × String) :=
  [("0001.sql", "A1"), ("0002.sql", "B1; BAD ;B3"), ("0003.sql", "D1")]

/-- The parsed migration files of `filesWithBad`. -/
def badMig1 : MigrationFile := ⟨1, "0001.sql", "A1", "k"⟩

def badMig2 : MigrationFile := ⟨2, "0002.sql", "B1; BAD ;B3", "k"⟩

def badMig3 : MigrationFile := ⟨3, "0003.sql", "D1", "k"⟩

end ZynxManager

/-! ## Infrastructure lemmas: the JS `Map` model -/

theorem mapHas_eq_keys (m : List (String × α)) (k : String) :
    mapHas m k = (m.map Prod.fst).any (· == k) := by
  unfold mapHas
  induction m with
  | nil => rfl
  | cons p ps ih => simp [ih]

theorem map_fst_mapSet (m : List (String × α)) (k' : String) (v : α) :
    (mapSet m k' v).map Prod.fst =
      if mapHas m k' then m.map Prod.fst else m.map Prod.fst ++ [k'] := by
  unfold mapSet mapHas
  split
  · rw [List.map_map]
    apply List.map_congr_left
    intro p _
    by_cases h : p.1 == k' <;> simp_all
  · simp

theorem mapHas_mapSet (m : List (String × α)) (k' : String) (v : α) (k : String) :
    mapHas (mapSet m k' v) k = (mapHas m k || (k' == k)) := by
  rw [mapHas_eq_keys, map_fst_mapSet]
  by_cases h : mapHas m k'
  · rw [if_pos h, ← mapHas_eq_keys]
    by_cases hk : (k' == k) = true
    · have : k' = k := by simpa using hk
      subst this
      simp [h]
    · simp [hk]
  · rw [if_neg h, List.any_append, ← mapHas_eq_keys]
    simp

theorem mapHas_buildMap (key : α → String) (l : List α) (k : String) :
    mapHas (buildMap key l) k = l.any (fun x => key x == k) := by
  unfold buildMap
  suffices h : ∀ (m : List (String × α)),
      mapHas (l.foldl (fun m x => mapSet m (key x) x) m) k
        = (mapHas m k || l.any (fun x => key x == k)) by
    simpa [mapHas] using h []
  induction l with
  | nil => simp
  | cons x xs ih =>
    intro m
    simp only [List.foldl_cons, List.any_cons]
    rw [ih, mapHas_mapSet]
    cases mapHas m k <;> cases h : (key x == k) <;> simp

theorem mem_mapSet (m : List (String × α)) (k' : String) (v : α) (p : String × α)
    (h : p ∈ mapSet m k' v) : p = (k', v) ∨ p ∈ m := by
  unfold mapSet at h
  split at h
  · rcases List.mem_map.mp h with ⟨q, hq, hqe⟩
    by_cases hk : q.1 == k'
    · simp only [hk, if_true] at hqe
      exact Or.inl hqe.symm
    · simp only [hk, if_false] at hqe
      exact Or.inr (hqe ▸ hq)
  · rcases List.mem_append.mp h with h1 | h1
    · exact Or.inr h1
    · simp only [List.mem_singleton] at h1
      exact Or.inl h1

theorem mem_foldl_mapSet (key : α → String) :
    ∀ (l : List α) (m : List (String × α)) (p : String × α),
    p ∈ l.foldl (fun m x => mapSet m (key x) x) m →
    p ∈ m ∨ l.any (fun x => key x == p.1) = true
  | [], _, _, h => Or.inl h
  | x :: xs, m, p, h => by
    simp only [List.foldl_cons] at h
    rcases mem_foldl_mapSet key xs (mapSet m (key x) x) p h with h1 | h1
    · rcases mem_mapSet _ _ _ _ h1 with h2 | h2
      · right
        simp [h2]
      · exact Or.inl h2
    · right
      simp [List.any_cons, h1]

theorem mem_buildMap_key (key : α → String) (l : List α) (p : String × α)
    (h : p ∈ buildMap key l) : l.any (fun x => key x == p.1) = true := by
  unfold buildMap at h
  rcases mem_foldl_mapSet key l [] p h with h1 | h1
  · simp at h1
  · exact h1

theorem mapHas_exists_mem (m : List (String × α)) (k : String)
    (h : mapHas m k = true) : ∃ v, (k, v) ∈ m := by
  unfold mapHas at h
  rcases List.any_eq_true.mp h with ⟨p, hp, hpk⟩
  have hk : p.1 = k := by simpa using hpk
  exact ⟨p.2, by simpa [← hk] using hp⟩

theorem foldl_mapSet_fresh (key : α → String) :
    ∀ (l : List α) (m : List (String × α)),
    (l.map key).Nodup → (∀ x ∈ l, mapHas m (key x) = false) →
    l.foldl (fun m x => mapSet m (key x) x) m = m ++ l.map (fun x => (key x, x))
  | [], m, _, _ => by simp
  | x :: xs, m, hnd, hfresh => by
    simp only [List.foldl_cons]
    have hx : mapHas m (key x) = false := hfresh x (List.mem_cons_self x xs)
    have hset : mapSet m (key x) x = m ++ [(key x, x)] := by
      unfold mapSet
      have : (m.any fun p => p.1 == key x) = false := hx
      rw [this]
      simp
    simp only [List.map_cons] at hnd
    rw [List.nodup_cons] at hnd
    have hfresh' : ∀ y ∈ xs, mapHas (m ++ [(key x, x)]) (key y) = false := by
      intro y hy
      unfold mapHas
      rw [List.any_append]
      have h1 : (m.any fun p => p.1 == key y) = false := hfresh y (List.mem_cons_of_mem x hy)
      have h2 : key x ≠ key y := by
        intro he
        exact hnd.1 (he ▸ List.mem_map_of_mem key hy)
      simp [h1, h2]
    rw [hset, foldl_mapSet_fresh key xs (m ++ [(key x, x)]) hnd.2 hfresh']
    simp

theorem buildMap_of_nodup (key : α → String) (l : List α)
    (hnd : (l.map key).Nodup) :
    buildMap key l = l.map (fun x => (key x, x)) := by
  unfold buildMap
  rw [foldl_mapSet_fresh key l [] hnd (by intro x _; rfl)]
  simp

theorem mapGet_map_pair (key : α → String) :
    ∀ (l : List α), (l.map key).Nodup → ∀ x ∈ l,
    mapGet (l.map (fun x => (key x, x))) (key x) = some x
  | [], _, x, hx => absurd hx (List.not_mem_nil x)
  | y :: ys, hnd, x, hx => by
    simp only [List.map_cons] at hnd
    rw [List.nodup_cons] at hnd
    rcases List.mem_cons.mp hx with h | h
    · subst h
      unfold mapGet
      simp
    · have hne : ((key y, y).1 == key x) = false := by
        simp only [beq_eq_false_iff_ne, ne_eq]
        intro he
        exact hnd.1 (he ▸ List.mem_map_of_mem key h)
      have hrec := mapGet_map_pair key ys hnd.2 x h
      unfold mapGet at hrec ⊢
      simp only [List.map_cons, List.find?_cons, hne]
      exact hrec

theorem mapGet_buildMap_self (key : α → String) (l : List α)
    (hnd : (l.map key).Nodup) (x : α) (hx : x ∈ l) :
    mapGet (buildMap key l) (key x) = some x := by
  rw [buildMap_of_nodup key l hnd]
  exact mapGet_map_pair key l hnd x hx

/-! ## Lemmas: `compare S S = []` on well-formed schemas -/

theorem any_key_self (key : α → String) (l : List α) (x : α) (hx : x ∈ l) :
    l.any (fun y => key y == key x) = true :=
  List.any_eq_true.mpr ⟨x, hx, by simp⟩

theorem flatMap_eq_nil_of_forall (l : List α) (f : α → List β)
    (h : ∀ x ∈ l, f x = []) : l.flatMap f = [] := by
  induction l with
  | nil => rfl
  | cons x xs ih =>
    rw [List.flatMap_cons, h x (List.mem_cons_self x xs),
      ih (fun y hy => h y (List.mem_cons_of_mem x hy))]
    rfl

theorem compareFields_self (tableName : String) (f : DBMLField) :
    SchemaDiffer.compareFields tableName f f = [] := by
  simp [SchemaDiffer.compareFields]

theorem compareTableFields_self (t : DBMLTable)
    (hnd : (t.fields.map (·.name)).Nodup) :
    SchemaDiffer.compareTableFields t t = [] := by
  unfold SchemaDiffer.compareTableFields
  have hadds : t.fields.filter
      (fun f => !(mapHas (buildMap (·.name) t.fields) f.name)) = [] := by
    apply List.filter_eq_nil_iff.mpr
    intro f hf
    rw [mapHas_buildMap]
    simp [any_key_self (·.name) t.fields f hf]
  have halters : t.fields.flatMap (fun f =>
      match mapGet (buildMap (·.name) t.fields) f.name with
      | some oldF => SchemaDiffer.compareFields t.name oldF f
      | none => []) = [] := by
    apply flatMap_eq_nil_of_forall
    intro f hf
    rw [mapGet_buildMap_self (·.name) t.fields hnd f hf]
    exact compareFields_self t.name f
  simp only [hadds, halters, List.map_nil, List.nil_append, List.append_nil]

theorem mapPairs_self_eq_nil {β : Type} (key : α → String) (l : List α)
    (g : String × α → β) :
    ((buildMap key l).filter (fun p => !(mapHas (buildMap key l) p.1))).map g = [] := by
  rw [List.filter_eq_nil_iff.mpr, List.map_nil]
  intro p hp
  have hhas : mapHas (buildMap key l) p.1 = true := by
    unfold mapHas
    exact List.any_eq_true.mpr ⟨p, hp, by simp⟩
  simp [hhas]

theorem compareIndexes_self (s : DatabaseSchema) :
    SchemaDiffer.compareIndexes s s = [] := by
  simp only [SchemaDiffer.compareIndexes]
  rw [mapPairs_self_eq_nil, mapPairs_self_eq_nil]
  rfl

theorem compareForeignKeys_self (s : DatabaseSchema) :
    SchemaDiffer.compareForeignKeys s s = [] := by
  simp only [SchemaDiffer.compareForeignKeys]
  rw [mapPairs_self_eq_nil, mapPairs_self_eq_nil]
  rfl

theorem compareTableStructure_self (s : DatabaseSchema)
    (hnd : (s.tables.map (·.name)).Nodup)
    (hfields : ∀ t ∈ s.tables, (t.fields.map (·.name)).Nodup) :
    SchemaDiffer.compareTableStructure s s = [] := by
  unfold SchemaDiffer.compareTableStructure
  have hcre : s.tables.filter
      (fun t => !(mapHas (buildMap (·.name) s.tables) t.name)) = [] := by
    apply List.filter_eq_nil_iff.mpr
    intro t ht
    rw [mapHas_buildMap]
    simp [any_key_self (·.name) s.tables t ht]
  have halt : s.tables.flatMap (fun t =>
      match mapGet (buildMap (·.name) s.tables) t.name with
      | some oldT => SchemaDiffer.compareTableFields oldT t
      | none => []) = [] := by
    apply flatMap_eq_nil_of_forall
    intro t ht
    rw [mapGet_buildMap_self (·.name) s.tables hnd t ht]
    exact compareTableFields_self t (hfields t ht)
  simp only [hcre, halt, List.map_nil, List.nil_append, List.append_nil]

/-! ## Lemmas: dependency ordering -/

theorem type_of_mem_block (cs : List SchemaChange) (τ : ChangeType) (c : SchemaChange)
    (h : c ∈ cs.filter (fun c => c.type == τ)) : c.type = τ := by
  have := List.of_mem_filter h
  simpa using this

theorem count_filter_full [DecidableEq α] (a : α) (p : α → Bool) (l : List α) :
    (l.filter p).count a = if p a then l.count a else 0 := by
  induction l with
  | nil => simp
  | cons x xs ih =>
    by_cases h : p x <;> by_cases h2 : a = x <;>
      simp_all [List.count_cons, List.filter_cons]

theorem pairwise_flatten_blocks (cs : List SchemaChange) (ts : List ChangeType)
    (h : List.Pairwise (fun a b => rankOf a ≤ rankOf b) ts) :
    List.Pairwise (fun a b : SchemaChange => rankOf a.type ≤ rankOf b.type)
      ((ts.map (fun τ => cs.filter (fun c => c.type == τ))).flatten) := by
  induction ts with
  | nil => simp
  | cons τ rest ih =>
    simp only [List.map_cons, List.flatten_cons]
    rw [List.pairwise_append]
    rw [List.pairwise_cons] at h
    refine ⟨?_, ih h.2, ?_⟩
    · apply List.pairwise_of_forall_mem_list
      intro a ha b hb
      rw [type_of_mem_block cs τ a ha, type_of_mem_block cs τ b hb]
    · intro a ha b hb
      rcases List.mem_flatten.mp hb with ⟨l, hl, hbl⟩
      rcases List.mem_map.mp hl with ⟨τ', hτ', rfl⟩
      rw [type_of_mem_block cs τ a ha, type_of_mem_block cs τ' b hbl]
      exact h.1 τ' hτ'

theorem orderChanges_eq_flatten (cs : List SchemaChange) :
    SchemaDiffer.orderChangesByDependency cs =
      (([.drop_foreign_key, .drop_index, .drop_table, .create_table,
         .alter_table, .create_index, .add_foreign_key] : List ChangeType).map
        (fun τ => cs.filter (fun c => c.type == τ))).flatten := by
  simp [SchemaDiffer.orderChangesByDependency]

/-- C1 counterexample: `compare` itself does not emit changes pre-sorted in
the claimed sequence — on these schemas it returns a `create_table` change
before a `drop_foreign_key` change. -/
theorem compare_not_presorted_counterexample :
    (SchemaDiffer.compare exSchemaOld exSchemaNew).map (·.type)
        = [.create_table, .drop_foreign_key]
      ∧ ¬ List.Pairwise (fun a b : SchemaChange => rankOf a.type ≤ rankOf b.type)
          (SchemaDiffer.compare exSchemaOld exSchemaNew) := by
  constructor
  · decide
  · decide

/-- C1 (amended): it is `orderChangesByDependency` — applied by
`generateAlterStatements` before rendering — that emits the changes
pre-sorted into exactly the sequence drop_foreign_key, drop_index,
drop_table, create_table, alter_table, create_index, add_foreign_key
(so in its output every drop_foreign_key precedes any create_table and
every add_foreign_key follows any alter_table); the ordered list is a
permutation of the input, while `compare` returns the changes grouped as
tables, then indexes, then foreign keys. -/
theorem orderChangesByDependency_sorts_and_permutes (cs : List SchemaChange) :
    List.Pairwise (fun a b : SchemaChange => rankOf a.type ≤ rankOf b.type)
        (SchemaDiffer.orderChangesByDependency cs)
      ∧ List.Perm (SchemaDiffer.orderChangesByDependency cs) cs := by
  constructor
  · rw [orderChanges_eq_flatten]
    exact pairwise_flatten_blocks cs _ (by decide)
  · apply List.perm_iff_count.mpr
    intro c
    simp only [SchemaDiffer.orderChangesByDependency, List.count_append, count_filter_full]
    cases h : c.type <;> simp [h]

/-- C4: for every well-formed schema (unique table names, unique field
names per table), comparing a schema against itself yields no changes. -/
theorem compare_self_eq_nil (S : DatabaseSchema)
    (hnd : (S.tables.map (·.name)).Nodup)
    (hfields : ∀ t ∈ S.tables, (t.fields.map (·.name)).Nodup) :
    SchemaDiffer.compare S S = [] := by
  unfold SchemaDiffer.compare
  rw [compareTableStructure_self S hnd hfields, compareIndexes_self, compareForeignKeys_self]
  rfl

/-- C4 witness: the well-formedness hypotheses hold for a concrete schema
and the theorem applies to it. -/
theorem compare_self_eq_nil_witness :
    ((twoTableSchema.tables.map (·.name)).Nodup
        ∧ ∀ t ∈ twoTableSchema.tables, (t.fields.map (·.name)).Nodup)
      ∧ SchemaDiffer.compare twoTableSchema twoTableSchema = [] :=
  ⟨⟨by decide, by decide⟩, compare_self_eq_nil twoTableSchema (by decide) (by decide)⟩

/-! ## Lemmas: foreign-key endpoint identity -/

theorem compareFields_type (tn : String) (f g : DBMLField) (c : SchemaChange)
    (h : c ∈ SchemaDiffer.compareFields tn f g) : c.type = .alter_table := by
  simp only [SchemaDiffer.compareFields, List.mem_append] at h
  rcases h with ((h | h) | h) | h <;> split_ifs at h <;> simp_all

theorem compareTableFields_type (t1 t2 : DBMLTable) (c : SchemaChange)
    (h : c ∈ SchemaDiffer.compareTableFields t1 t2) : c.type = .alter_table := by
  simp only [SchemaDiffer.compareTableFields, List.mem_append] at h
  rcases h with (h | h) | h
  · rcases List.mem_map.mp h with ⟨f, _, rfl⟩
    rfl
  · rcases List.mem_flatMap.mp h with ⟨f, _, hf⟩
    rcases hget : mapGet (buildMap (·.name) t1.fields) f.name with _ | oldF <;>
      rw [hget] at hf
    · simp at hf
    · exact compareFields_type t1.name oldF f c hf
  · rcases List.mem_map.mp h with ⟨f, _, rfl⟩
    rfl

theorem compareTableStructure_not_fk (o n : DatabaseSchema) (c : SchemaChange)
    (h : c ∈ SchemaDiffer.compareTableStructure o n) : isFkChange c = false := by
  simp only [SchemaDiffer.compareTableStructure, List.mem_append] at h
  rcases h with (h | h) | h
  · rcases List.mem_map.mp h with ⟨t, _, rfl⟩
    rfl
  · rcases List.mem_flatMap.mp h with ⟨t, _, ht⟩
    rcases hget : mapGet (buildMap (·.name) o.tables) t.name with _ | oldT <;>
      rw [hget] at ht
    · simp at ht
    · rw [isFkChange, compareTableFields_type oldT t c ht]
      rfl
  · rcases List.mem_map.mp h with ⟨t, _, rfl⟩
    rfl

theorem compareIndexes_not_fk (o n : DatabaseSchema) (c : SchemaChange)
    (h : c ∈ SchemaDiffer.compareIndexes o n) : isFkChange c = false := by
  simp only [SchemaDiffer.compareIndexes, List.mem_append] at h
  rcases h with h | h <;> rcases List.mem_map.mp h with ⟨p, _, rfl⟩ <;> rfl

theorem compareForeignKeys_is_fk (o n : DatabaseSchema) (c : SchemaChange)
    (h : c ∈ SchemaDiffer.compareForeignKeys o n) : isFkChange c = true := by
  simp only [SchemaDiffer.compareForeignKeys, List.mem_append] at h
  rcases h with h | h <;> rcases List.mem_map.mp h with ⟨p, _, rfl⟩ <;> rfl

theorem compare_filter_fk (o n : DatabaseSchema) :
    (SchemaDiffer.compare o n).filter isFkChange = SchemaDiffer.compareForeignKeys o n := by
  unfold SchemaDiffer.compare
  rw [List.filter_append, List.filter_append,
    List.filter_eq_nil_iff.mpr (fun c hc => by
      simp [compareTableStructure_not_fk o n c hc]),
    List.filter_eq_nil_iff.mpr (fun c hc => by
      simp [compareIndexes_not_fk o n c hc]),
    List.filter_eq_self.mpr (fun c hc => compareForeignKeys_is_fk o n c hc)]
  rfl

theorem compareForeignKeys_eq_nil_iff (o n : DatabaseSchema) :
    SchemaDiffer.compareForeignKeys o n = [] ↔ ∀ k, fkHasKey o k = fkHasKey n k := by
  constructor
  · intro h k
    simp only [SchemaDiffer.compareForeignKeys] at h
    rcases List.append_eq_nil.mp h with ⟨hadds, hdrops⟩
    rw [List.map_eq_nil_iff] at hadds hdrops
    by_cases ho : fkHasKey o k = true <;> by_cases hn : fkHasKey n k = true
    · rw [ho, hn]
    · -- key in old, not in new: the drop loop would emit a change
      exfalso
      have hhas : mapHas (buildMap SchemaDiffer.fkKey o.refs) k = true := by
        rw [mapHas_buildMap]; exact ho
      rcases mapHas_exists_mem _ _ hhas with ⟨v, hv⟩
      have hmem : ((k, v) : String × DBMLRef) ∈
          (buildMap SchemaDiffer.fkKey o.refs).filter
            (fun p => !(mapHas (buildMap SchemaDiffer.fkKey n.refs) p.1)) := by
        apply List.mem_filter.mpr
        refine ⟨hv, ?_⟩
        rw [mapHas_buildMap]
        simp only [Bool.not_eq_true']
        exact Bool.not_eq_true _ ▸ (by simpa [fkHasKey] using hn)
      rw [hdrops] at hmem
      exact List.not_mem_nil _ hmem
    · -- key in new, not in old: the add loop would emit a change
      exfalso
      have hhas : mapHas (buildMap SchemaDiffer.fkKey n.refs) k = true := by
        rw [mapHas_buildMap]; exact hn
      rcases mapHas_exists_mem _ _ hhas with ⟨v, hv⟩
      have hmem : ((k, v) : String × DBMLRef) ∈
          (buildMap SchemaDiffer.fkKey n.refs).filter
            (fun p => !(mapHas (buildMap SchemaDiffer.fkKey o.refs) p.1)) := by
        apply List.mem_filter.mpr
        refine ⟨hv, ?_⟩
        rw [mapHas_buildMap]
        simp only [Bool.not_eq_true']
        exact Bool.not_eq_true _ ▸ (by simpa [fkHasKey] using ho)
      rw [hadds] at hmem
      exact List.not_mem_nil _ hmem
    · rw [Bool.not_eq_true] at ho hn
      rw [ho, hn]
  · intro h
    simp only [SchemaDiffer.compareForeignKeys]
    have hadds : (buildMap SchemaDiffer.fkKey n.refs).filter
        (fun p => !(mapHas (buildMap SchemaDiffer.fkKey o.refs) p.1)) = [] := by
      apply List.filter_eq_nil_iff.mpr
      intro p hp
      rw [mapHas_buildMap]
      have : fkHasKey n p.1 = true := by
        simpa [fkHasKey] using mem_buildMap_key SchemaDiffer.fkKey n.refs p hp
      have : fkHasKey o p.1 = true := (h p.1).trans this
      simp [show o.refs.any (fun r => SchemaDiffer.fkKey r == p.1) = true from this]
    have hdrops : (buildMap SchemaDiffer.fkKey o.refs).filter
        (fun p => !(mapHas (buildMap SchemaDiffer.fkKey n.refs) p.1)) = [] := by
      apply List.filter_eq_nil_iff.mpr
      intro p hp
      rw [mapHas_buildMap]
      have : fkHasKey o p.1 = true := by
        simpa [fkHasKey] using mem_buildMap_key SchemaDiffer.fkKey o.refs p hp
      have : fkHasKey n p.1 = true := ((h p.1).symm.trans this)
      simp [show n.refs.any (fun r => SchemaDiffer.fkKey r == p.1) = true from this]
    rw [hadds, hdrops]
    rfl

theorem any_congr_fun (l : List α) (p q : α → Bool) (h : ∀ a ∈ l, p a = q a) :
    l.any p = l.any q := by
  induction l with
  | nil => rfl
  | cons x xs ih =>
    simp only [List.any_cons]
    rw [h x (List.mem_cons_self x xs), ih (fun a ha => h a (List.mem_cons_of_mem x ha))]

theorem filter_mapSet_same_key (m : List (String × α)) (k : String) (v : α) :
    (mapSet m k v).filter (fun p => !(p.1 == k)) = m.filter (fun p => !(p.1 == k)) := by
  unfold mapSet
  split
  · rw [List.filter_map]
    have hpt : ∀ p : String × α,
        ((fun p : String × α => !(p.1 == k)) ∘ (fun p => if p.1 == k then (k, v) else p)) p
          = (fun p : String × α => !(p.1 == k)) p := by
      intro p
      by_cases h : p.1 = k <;> simp [h]
    rw [List.filter_congr (fun p _ => hpt p)]
    have hfix : ∀ p ∈ m.filter (fun p : String × α => !(p.1 == k)),
        (fun p : String × α => if p.1 == k then (k, v) else p) p = id p := by
      intro p hp
      have := List.of_mem_filter hp
      simp only [Bool.not_eq_true'] at this
      simp [this]
    rw [List.map_congr_left hfix, List.map_id]
  · rw [List.filter_append]
    simp

theorem mapSet_filter_comm (m : List (String × α)) (k k' : String) (v : α)
    (hne : (k' == k) = false) :
    mapSet (m.filter (fun p => !(p.1 == k))) k' v
      = (mapSet m k' v).filter (fun p => !(p.1 == k)) := by
  have hcond : ((m.filter (fun p => !(p.1 == k))).any (fun p => p.1 == k'))
      = (m.any (fun p => p.1 == k')) := by
    rw [List.any_filter]
    apply any_congr_fun
    intro p _
    have hkk : k' ≠ k := by simpa using hne
    by_cases h : p.1 = k'
    · have hk : (p.1 == k) = false := by simpa [h] using hne
      simp [h, hk, hkk]
    · simp [h]
  unfold mapSet
  rw [hcond]
  split
  · have hpt : ∀ p : String × α,
        ((fun p : String × α => !(p.1 == k)) ∘ (fun p => if p.1 == k' then (k', v) else p)) p
          = (fun p : String × α => !(p.1 == k)) p := by
      intro p
      by_cases h : p.1 = k'
      · have hk : (p.1 == k) = false := by simpa [h] using hne
        simp [h, hk, hne]
      · simp [h]
    rw [List.filter_map, List.filter_congr (fun p _ => hpt p)]
  · rw [List.filter_append]
    simp [hne]

theorem foldl_mapSet_filter (key : α → String) (k : String) :
    ∀ (l : List α) (m : List (String × α)),
    (l.filter (fun x => !(key x == k))).foldl (fun m x => mapSet m (key x) x)
        (m.filter (fun p => !(p.1 == k)))
      = (l.foldl (fun m x => mapSet m (key x) x) m).filter (fun p => !(p.1 == k))
  | [], _ => by simp
  | x :: xs, m => by
    by_cases hx : (key x == k) = true
    · rw [List.filter_cons_of_neg (by simp [hx]), List.foldl_cons]
      have h1 : key x = k := by simpa using hx
      have h2 : (mapSet m (key x) x).filter (fun p => !(p.1 == k))
          = m.filter (fun p => !(p.1 == k)) := by
        rw [h1]
        exact filter_mapSet_same_key m k x
      rw [← h2]
      exact foldl_mapSet_filter key k xs (mapSet m (key x) x)
    · have hx' : (key x == k) = false := by simpa using hx
      rw [List.filter_cons_of_pos (by simp [hx']), List.foldl_cons, List.foldl_cons,
        mapSet_filter_comm m k (key x) x hx', foldl_mapSet_filter key k xs (mapSet m (key x) x)]

theorem buildMap_filter_key (key : α → String) (k : String) (l : List α) :
    buildMap key (l.filter (fun x => !(key x == k)))
      = (buildMap key l).filter (fun p => !(p.1 == k)) := by
  unfold buildMap
  rw [← foldl_mapSet_filter key k l []]
  rfl

theorem mapHas_filter_ne (m : List (String × α)) (k j : String) (hne : (j == k) = false) :
    mapHas (m.filter (fun p => !(p.1 == k))) j = mapHas m j := by
  unfold mapHas
  rw [List.any_filter]
  apply any_congr_fun
  intro p _
  have hjk : j ≠ k := by simpa using hne
  by_cases h : p.1 = j
  · have hk : (p.1 == k) = false := by simpa [h] using hne
    simp [h, hk, hjk]
  · simp [h]

theorem compareForeignKeys_drop_shared (o n : DatabaseSchema) (k : String)
    (ho : fkHasKey o k = true) (hn : fkHasKey n k = true) :
    SchemaDiffer.compareForeignKeys (dropFkRefs k o) (dropFkRefs k n)
      = SchemaDiffer.compareForeignKeys o n := by
  have hdrop : ∀ s : DatabaseSchema, (dropFkRefs k s).refs
      = s.refs.filter (fun r => !(SchemaDiffer.fkKey r == k)) := fun _ => rfl
  simp only [SchemaDiffer.compareForeignKeys, hdrop, buildMap_filter_key, List.filter_filter]
  have hside : ∀ (a b : DatabaseSchema), fkHasKey b k = true →
      (buildMap SchemaDiffer.fkKey a.refs).filter
        (fun p => (!(mapHas ((buildMap SchemaDiffer.fkKey b.refs).filter
            (fun p => !(p.1 == k))) p.1)) && !(p.1 == k))
      = (buildMap SchemaDiffer.fkKey a.refs).filter
          (fun p => !(mapHas (buildMap SchemaDiffer.fkKey b.refs) p.1)) := by
    intro a b hb
    apply List.filter_congr
    intro p _
    by_cases hpk : (p.1 == k) = true
    · have hp1 : p.1 = k := by simpa using hpk
      have : mapHas (buildMap SchemaDiffer.fkKey b.refs) p.1 = true := by
        rw [mapHas_buildMap, hp1]
        exact hb
      simp [hpk, this]
    · have hpk' : (p.1 == k) = false := by simpa using hpk
      rw [mapHas_filter_ne _ _ _ hpk']
      simp [hpk']
  rw [hside n o ho, hside o n hn]

/-- C7: foreign-key identity is purely the endpoint quadruple.  First, a
reference whose endpoint key occurs in both schemas is inert: removing the
key-`k` references from both sides (however their `onDelete`/`onUpdate`
actions differ) leaves the output of `compare` unchanged, so no
`add_foreign_key` or `drop_foreign_key` change is ever emitted for it.
Second, `compare` emits no foreign-key change at all precisely when both
schemas have the same set of endpoint keys — only endpoint changes produce
a new or removed reference change. -/
theorem compare_foreign_keys_endpoint_identity (o n : DatabaseSchema) :
    (∀ k, fkHasKey o k = true → fkHasKey n k = true →
        SchemaDiffer.compare (dropFkRefs k o) (dropFkRefs k n)
          = SchemaDiffer.compare o n)
      ∧ ((SchemaDiffer.compare o n).filter isFkChange = []
          ↔ ∀ k, fkHasKey o k = fkHasKey n k) := by
  constructor
  · intro k ho hn
    have h1 : SchemaDiffer.compareTableStructure (dropFkRefs k o) (dropFkRefs k n)
        = SchemaDiffer.compareTableStructure o n := rfl
    have h2 : SchemaDiffer.compareIndexes (dropFkRefs k o) (dropFkRefs k n)
        = SchemaDiffer.compareIndexes o n := rfl
    unfold SchemaDiffer.compare
    rw [h1, h2, compareForeignKeys_drop_shared o n k ho hn]
  · rw [compare_filter_fk]
    exact compareForeignKeys_eq_nil_iff o n

/-- C7 witness: the shared-endpoint reference of the concrete schemas (its
`onDelete` action differs between the two) is inert for `compare`. -/
theorem compare_foreign_keys_endpoint_identity_witness :
    (fkHasKey twoTableSchema "posts.uid->users.id" = true
        ∧ fkHasKey twoTableSchemaCascade "posts.uid->users.id" = true)
      ∧ SchemaDiffer.compare (dropFkRefs "posts.uid->users.id" twoTableSchema)
          (dropFkRefs "posts.uid->users.id" twoTableSchemaCascade)
        = SchemaDiffer.compare twoTableSchema twoTableSchemaCascade :=
  ⟨⟨by decide, by decide⟩,
    (compare_foreign_keys_endpoint_identity twoTableSchema twoTableSchemaCascade).1
      "posts.uid->users.id" (by decide) (by decide)⟩

/-! ## Lemmas: rendered-SQL determinism -/

theorem string_data_inj {s t : String} (h : s.data = t.data) : s = t := by
  cases s
  cases t
  exact congrArg String.mk h

/-- C6 counterexample: on a non-empty change set, two renderings of the
same schemas at different wall-clock instants are not byte-identical — the
header embeds the generation timestamp. -/
theorem generateAlterStatements_timestamp_counterexample :
    SchemaDiffer.compare exSchemaOld exSchemaNew ≠ []
      ∧ SchemaDiffer.generateAlterStatements "2024-01-01T00:00:00.000Z" exSchemaOld exSchemaNew
        ≠ SchemaDiffer.generateAlterStatements "2024-01-01T00:00:01.000Z" exSchemaOld exSchemaNew := by
  constructor
  · decide
  · decide

/-- C6 (amended): `compare` is a pure function of the two schemas, and the
SQL rendered by `generateAlterStatements` depends on the schemas and on the
generation timestamp only: two renderings from identical schemas are
byte-identical exactly when the change set is empty (both render `""`) or
the two calls read the same clock string. -/
theorem generateAlterStatements_deterministic_iff (o n : DatabaseSchema) (ts1 ts2 : String) :
    SchemaDiffer.generateAlterStatements ts1 o n = SchemaDiffer.generateAlterStatements ts2 o n
      ↔ (SchemaDiffer.compare o n = [] ∨ ts1 = ts2) := by
  simp only [SchemaDiffer.generateAlterStatements]
  by_cases hc : SchemaDiffer.compare o n = []
  · simp [hc]
  · have hlen : ¬ (((SchemaDiffer.compare o n).length == 0) = true) := by
      simpa [List.length_eq_zero] using hc
    rw [if_neg hlen, if_neg hlen]
    constructor
    · intro heq
      right
      have hdata := congrArg String.data heq
      simp only [SchemaDiffer.generateHeader, String.data_append, List.append_assoc] at hdata
      exact string_data_inj (List.append_cancel_right (List.append_cancel_left hdata))
    · intro h
      rcases h with h | h
      · exact absurd h hc
      · rw [h]

/-- C8 counterexample: a string default with an embedded single quote is
wrapped verbatim — the embedded quote is NOT escaped by doubling as the
claim requires. -/
theorem formatDefaultValue_no_quote_doubling_counterexample :
    PG.formatDefaultValue "o'neil" "text" = "'o'neil'"
      ∧ PG.formatDefaultValue "o'neil" "text" ≠ "'o''neil'" := by
  constructor
  · decide
  · decide

/-- C8 (amended): `formatDefaultValue` recognizes raw-SQL defaults by
case-sensitive substring match and normalizes them to a canonical unquoted
spelling; boolean-typed defaults normalize to TRUE/FALSE; numeric-typed
defaults pass through unquoted; every other default is wrapped verbatim in
single quotes when it neither starts nor ends with a single quote, and
passed through unchanged otherwise — embedded quotes are never escaped. -/
theorem formatDefaultValue_policy (v t : String) :
    (containsSub v "gen_random_uuid()" = true →
        PG.formatDefaultValue v t = "gen_random_uuid()")
      ∧ (containsSub v "gen_random_uuid()" = false → containsSub v "now()" = true →
        PG.formatDefaultValue v t = "NOW()")
      ∧ (containsSub v "gen_random_uuid()" = false → containsSub v "now()" = false →
        containsSub v "current_timestamp" = true →
        PG.formatDefaultValue v t = "CURRENT_TIMESTAMP")
      ∧ (containsSub v "gen_random_uuid()" = false → containsSub v "now()" = false →
        containsSub v "current_timestamp" = false →
        containsSub (toLowerS t) "jsonb" = false → containsSub (toLowerS t) "array" = false →
        containsSub (toLowerS t) "boolean" = true →
        PG.formatDefaultValue v t = (if toLowerS v == "true" then "TRUE" else "FALSE"))
      ∧ (containsSub v "gen_random_uuid()" = false → containsSub v "now()" = false →
        containsSub v "current_timestamp" = false →
        containsSub (toLowerS t) "jsonb" = false → containsSub (toLowerS t) "array" = false →
        containsSub (toLowerS t) "boolean" = false → PG.isNumericType t = true →
        PG.formatDefaultValue v t = v)
      ∧ (containsSub v "gen_random_uuid()" = false → containsSub v "now()" = false →
        containsSub v "current_timestamp" = false →
        containsSub (toLowerS t) "jsonb" = false → containsSub (toLowerS t) "array" = false →
        containsSub (toLowerS t) "boolean" = false → PG.isNumericType t = false →
        PG.formatDefaultValue v t =
          (if !(startsWithS v "'") && !(endsWithS v "'") then "'" ++ v ++ "'" else v)) := by
  refine ⟨?_, ?_, ?_, ?_, ?_, ?_⟩
  · intro h1
    simp [PG.formatDefaultValue, h1]
  · intro h1 h2
    simp [PG.formatDefaultValue, h1, h2]
  · intro h1 h2 h3
    simp [PG.formatDefaultValue, h1, h2, h3]
  · intro h1 h2 h3 h4 h5 h6
    simp [PG.formatDefaultValue, PG.baseFormatDefaultValue, h1, h2, h3, h4, h5, h6]
  · intro h1 h2 h3 h4 h5 h6 h7
    simp [PG.formatDefaultValue, PG.baseFormatDefaultValue, h1, h2, h3, h4, h5, h6, h7]
  · intro h1 h2 h3 h4 h5 h6 h7
    simp [PG.formatDefaultValue, PG.baseFormatDefaultValue, h1, h2, h3, h4, h5, h6, h7]

/-- C8 witness: the policy applied to one concrete input per clause. -/
theorem formatDefaultValue_policy_witness :
    PG.formatDefaultValue "gen_random_uuid()" "uuid" = "gen_random_uuid()"
      ∧ PG.formatDefaultValue "now()" "timestamp" = "NOW()"
      ∧ PG.formatDefaultValue "true" "boolean"
          = (if toLowerS "true" == "true" then "TRUE" else "FALSE")
      ∧ PG.formatDefaultValue "42" "integer" = "42"
      ∧ PG.formatDefaultValue "hello" "text"
          = (if !(startsWithS "hello" "'") && !(endsWithS "hello" "'")
             then "'" ++ "hello" ++ "'" else "hello") :=
  ⟨(formatDefaultValue_policy "gen_random_uuid()" "uuid").1 (by decide),
   (formatDefaultValue_policy "now()" "timestamp").2.1 (by decide) (by decide),
   (formatDefaultValue_policy "true" "boolean").2.2.2.1 (by decide) (by decide) (by decide)
     (by decide) (by decide) (by decide),
   (formatDefaultValue_policy "42" "integer").2.2.2.2.1 (by decide) (by decide) (by decide)
     (by decide) (by decide) (by decide) (by decide),
   (formatDefaultValue_policy "hello" "text").2.2.2.2.2 (by decide) (by decide) (by decide)
     (by decide) (by decide) (by decide) (by decide)⟩

/-- C10: in the generator's column rendering (used by CREATE TABLE), a
primary-key field renders as `name type PRIMARY KEY [DEFAULT ...]` — the
UNIQUE and NOT NULL keywords are suppressed whatever the `unique` /
`not_null` flags say (the rendering is invariant under changing them) —
while a non-primary-key field gets UNIQUE / NOT NULL exactly when the
corresponding flag is truthy. -/
theorem generateFieldSQL_primary_key_suppression (f : DBMLField) :
    (truthyB f.pk = true →
        (∀ u nn, PG.generateFieldSQL { f with unique := u, not_null := nn }
            = PG.generateFieldSQL f)
          ∧ PG.generateFieldSQL f = PG.pkRendered f)
      ∧ (truthyB f.pk = false → PG.generateFieldSQL f = PG.nonPkRendered f) := by
  constructor
  · intro hpk
    constructor
    · intro u nn
      simp [PG.generateFieldSQL, hpk]
    · cases h : PG.escapeIdentifier f.name with
      | error e =>
        simp [PG.generateFieldSQL, PG.pkRendered, h, Bind.bind, Except.bind]
      | ok i =>
        cases hd : f.default <;>
          simp [PG.generateFieldSQL, PG.pkRendered, PG.defaultClause, h, hd, hpk,
            Bind.bind, Except.bind, String.append_assoc, String.append_empty]
        all_goals apply String.ext
        all_goals simp [String.data_append]
  · intro hpk
    cases h : PG.escapeIdentifier f.name with
    | error e =>
      simp [PG.generateFieldSQL, PG.nonPkRendered, h, Bind.bind, Except.bind]
    | ok i =>
      cases hd : f.default
      all_goals by_cases hu : truthyB f.unique = true
      all_goals by_cases hn2 : truthyB f.not_null = true
      all_goals simp [PG.generateFieldSQL, PG.nonPkRendered, PG.defaultClause, h, hd, hpk,
        hu, hn2, Bind.bind, Except.bind, String.append_assoc, String.append_empty]
      all_goals apply String.ext
      all_goals simp [String.data_append]

/-- C10 witness: a primary-key field with `unique` and `not_null` also set
renders with PRIMARY KEY only; a non-primary-key field renders its UNIQUE
and NOT NULL flags. -/
theorem generateFieldSQL_primary_key_suppression_witness :
    truthyB (⟨"id", "uuid", some true, some true, some true, none, none⟩ : DBMLField).pk = true
      ∧ PG.generateFieldSQL ⟨"id", "uuid", some true, some true, some true, none, none⟩
          = PG.pkRendered ⟨"id", "uuid", some true, some true, some true, none, none⟩
      ∧ PG.generateFieldSQL ⟨"email", "varchar(255)", none, some true, some true, none, none⟩
          = PG.nonPkRendered ⟨"email", "varchar(255)", none, some true, some true, none, none⟩ :=
  ⟨by decide,
   ((generateFieldSQL_primary_key_suppression
      ⟨"id", "uuid", some true, some true, some true, none, none⟩).1 (by decide)).2,
   (generateFieldSQL_primary_key_suppression
      ⟨"email", "varchar(255)", none, some true, some true, none, none⟩).2 (by decide)⟩

/-! ## Lemmas: what `generateCompleteSchema` does and does not validate -/

theorem append_ne_empty_left (a b : String) (ha : a ≠ "") : a ++ b ≠ "" := by
  intro h
  apply ha
  have hd := congrArg String.data h
  rw [String.data_append] at hd
  exact string_data_inj (List.append_eq_nil.mp hd).1

theorem orElseS_ne_empty (a : Option String) (b : String) (hb : b ≠ "") :
    orElseS a b ≠ "" := by
  cases a with
  | none => exact hb
  | some s =>
    simp only [orElseS]
    split
    · exact hb
    · simpa using fun h => by simp_all

theorem escapeIdentifier_ok (identifier : String) (h : identifier ≠ "") :
    ∃ s, PG.escapeIdentifier identifier = .ok s := by
  unfold PG.escapeIdentifier
  rw [if_neg (by simpa using h)]
  exact ⟨_, rfl⟩

theorem mapExcept_ok {α β : Type} (f : α → Except String β) (l : List α)
    (h : ∀ a ∈ l, ∃ b, f a = .ok b) : ∃ bs, PG.mapExcept f l = .ok bs := by
  induction l with
  | nil => exact ⟨[], rfl⟩
  | cons x xs ih =>
    obtain ⟨b, hb⟩ := h x (List.mem_cons_self x xs)
    obtain ⟨bs, hbs⟩ := ih (fun a ha => h a (List.mem_cons_of_mem x ha))
    exact ⟨b :: bs, by simp [PG.mapExcept, hb, hbs, Bind.bind, Except.bind]⟩

theorem mapExcept_isOk_false {α β : Type} (f : α → Except String β) (l : List α)
    (a : α) (ha : a ∈ l) (h : (f a).isOk = false) :
    (PG.mapExcept f l).isOk = false := by
  induction l with
  | nil => simp at ha
  | cons x xs ih =>
    rcases List.mem_cons.mp ha with rfl | ha'
    · cases hfa : f a with
      | error e => simp [PG.mapExcept, hfa, Bind.bind, Except.bind, Except.isOk, Except.toBool]
      | ok b => rw [hfa] at h; simp [Except.isOk, Except.toBool] at h
    · cases hfx : f x with
      | error e => simp [PG.mapExcept, hfx, Bind.bind, Except.bind, Except.isOk, Except.toBool]
      | ok b =>
        cases hxs : PG.mapExcept f xs with
        | error e =>
          simp [PG.mapExcept, hfx, hxs, Bind.bind, Except.bind, Except.isOk, Except.toBool]
        | ok bs =>
          have := ih ha'
          rw [hxs] at this
          simp [Except.isOk, Except.toBool] at this

theorem validateField_name_ne (tn : String) (f : DBMLField)
    (h : PG.validateField tn f = .ok ()) : f.name ≠ "" := by
  unfold PG.validateField at h
  split_ifs at h
  intro hc
  simp_all

theorem validateTableFields_all_ok (tn : String) :
    ∀ (seen : List String) (fs : List DBMLField),
    PG.validateTableFields tn seen fs = .ok () →
    ∀ f ∈ fs, PG.validateField tn f = .ok ()
  | _, [], _, f, hf => absurd hf (List.not_mem_nil f)
  | seen, x :: xs, h, f, hf => by
    unfold PG.validateTableFields at h
    split_ifs at h
    cases hvx : PG.validateField tn x with
    | error e => rw [hvx] at h; simp [Bind.bind, Except.bind] at h
    | ok u =>
      rw [hvx] at h
      simp only [Bind.bind, Except.bind] at h
      rcases List.mem_cons.mp hf with rfl | hf'
      · cases u; exact hvx
      · exact validateTableFields_all_ok tn (x.name :: seen) xs h f hf'

theorem validateTable_parts (t : DBMLTable) (h : PG.validateTable t = .ok ()) :
    t.name ≠ "" ∧ ∀ f ∈ t.fields, f.name ≠ "" := by
  unfold PG.validateTable at h
  split_ifs at h with h1 h2
  constructor
  · intro hc
    simp [hc] at h1
  · intro f hf
    exact validateField_name_ne t.name f (validateTableFields_all_ok t.name [] t.fields h f hf)

theorem except_isOk_exists {α : Type} (e : Except String α) (h : e.isOk = true) :
    ∃ v, e = .ok v := by
  cases e with
  | error e => simp [Except.isOk, Except.toBool] at h
  | ok v => exact ⟨v, rfl⟩

theorem generateFieldSQL_ok (f : DBMLField) (h : f.name ≠ "") :
    ∃ s, PG.generateFieldSQL f = .ok s := by
  apply except_isOk_exists
  obtain ⟨i, hi⟩ := escapeIdentifier_ok f.name h
  cases hd : f.default <;>
    simp [PG.generateFieldSQL, hi, hd, Bind.bind, Except.bind, Except.isOk, Except.toBool]

theorem generateTableComment_ok (t : DBMLTable) (h : t.name ≠ "") :
    ∃ o, PG.generateTableComment t = .ok o := by
  apply except_isOk_exists
  obtain ⟨i, hi⟩ := escapeIdentifier_ok t.name h
  unfold PG.generateTableComment
  split
  · simp [hi, Bind.bind, Except.bind, Except.isOk, Except.toBool]
  · rfl

theorem generateColumnComment_ok (tn : String) (f : DBMLField)
    (htn : tn ≠ "") (hf : f.name ≠ "") :
    ∃ o, PG.generateColumnComment tn f = .ok o := by
  apply except_isOk_exists
  obtain ⟨i, hi⟩ := escapeIdentifier_ok tn htn
  obtain ⟨j, hj⟩ := escapeIdentifier_ok f.name hf
  unfold PG.generateColumnComment
  split
  · simp [hi, hj, Bind.bind, Except.bind, Except.isOk, Except.toBool]
  · rfl

theorem generateCreateTable_ok (t : DBMLTable) (h : PG.validateTable t = .ok ()) :
    ∃ s, PG.generateCreateTable t = .ok s := by
  obtain ⟨hname, hfields⟩ := validateTable_parts t h
  obtain ⟨fs, hfs⟩ := mapExcept_ok PG.generateFieldSQL t.fields
    (fun f hf => generateFieldSQL_ok f (hfields f hf))
  obtain ⟨tn, htn⟩ := escapeIdentifier_ok t.name hname
  obtain ⟨tc, htc⟩ := generateTableComment_ok t hname
  obtain ⟨ccs, hccs⟩ := mapExcept_ok (PG.generateColumnComment t.name) t.fields
    (fun f hf => generateColumnComment_ok t.name f hname (hfields f hf))
  apply except_isOk_exists
  simp [PG.generateCreateTable, h, hfs, htn, htc, hccs, Bind.bind, Except.bind,
    Except.isOk, Except.toBool]

theorem generateCreateTable_isOk_false (t : DBMLTable)
    (h : (PG.validateTable t).isOk = false) :
    (PG.generateCreateTable t).isOk = false := by
  cases hv : PG.validateTable t with
  | error e => simp [PG.generateCreateTable, hv, Bind.bind, Except.bind, Except.isOk, Except.toBool]
  | ok u => rw [hv] at h; simp [Except.isOk, Except.toBool] at h

theorem generateCreateIndex_ok (i : DBMLIndex)
    (ht : i.tableName ≠ "") (hc : ∀ c ∈ i.columns, c ≠ "") :
    ∃ s, PG.generateCreateIndex i = .ok s := by
  obtain ⟨en, hen⟩ := escapeIdentifier_ok
    (orElseS i.name ("idx_" ++ i.tableName ++ "_" ++ joinSep "_" i.columns))
    (orElseS_ne_empty _ _ (append_ne_empty_left "idx_" _ (by decide)))
  obtain ⟨tn, htn⟩ := escapeIdentifier_ok i.tableName ht
  obtain ⟨cols, hcols⟩ := mapExcept_ok PG.escapeIdentifier i.columns
    (fun c hcm => escapeIdentifier_ok c (hc c hcm))
  apply except_isOk_exists
  simp [PG.generateCreateIndex, hen, htn, hcols, Bind.bind, Except.bind,
    Except.isOk, Except.toBool]

theorem generateAddForeignKey_ok (r : DBMLRef)
    (h1 : r.rfrom.table ≠ "") (h2 : r.rfrom.column ≠ "")
    (h3 : r.rto.table ≠ "") (h4 : r.rto.column ≠ "") :
    ∃ s, PG.generateAddForeignKey r = .ok s := by
  obtain ⟨cn, hcn⟩ := escapeIdentifier_ok
    (orElseS r.name ("fk_" ++ r.rfrom.table ++ "_" ++ r.rfrom.column))
    (orElseS_ne_empty _ _ (append_ne_empty_left "fk_" _ (by decide)))
  obtain ⟨ft, hft⟩ := escapeIdentifier_ok r.rfrom.table h1
  obtain ⟨fc, hfc⟩ := escapeIdentifier_ok r.rfrom.column h2
  obtain ⟨tt, htt⟩ := escapeIdentifier_ok r.rto.table h3
  obtain ⟨tc, htc⟩ := escapeIdentifier_ok r.rto.column h4
  apply except_isOk_exists
  simp [PG.generateAddForeignKey, hcn, hft, hfc, htt, htc, Bind.bind, Except.bind,
    Except.isOk, Except.toBool]

/-- C5 counterexample: a schema with a dangling reference (to the
non-existent table `posts`) renders successfully — `generateCompleteSchema`
raises no error on it, even though the (never-invoked) `validateSchema`
would reject it. -/
theorem generateCompleteSchema_dangling_ref_counterexample :
    (PG.generateCompleteSchema "T" danglingRefSchema).isOk = true
      ∧ (PG.validateSchema danglingRefSchema).isOk = false := by
  constructor
  · decide
  · decide

/-- C5 (amended): before rendering a full schema the generator performs
only per-table validation — `generateCreateTable` runs `validateTable`
(non-empty table name, at least one field, unique non-empty field names
each with a type) and any violation aborts the rendering with an error —
but it never invokes `validateSchema`/`validateForeignKeys`: duplicate
table names and dangling references are not rejected, and rendering
succeeds on them whenever every table passes `validateTable` and the
index/reference identifiers are non-empty. -/
theorem generateCompleteSchema_table_validation_only (ts : String) (s : DatabaseSchema) :
    ((∀ t ∈ s.tables, PG.validateTable t = .ok ()) →
      (∀ i ∈ s.indexes, i.tableName ≠ "" ∧ ∀ c ∈ i.columns, c ≠ "") →
      (∀ r ∈ s.refs, r.rfrom.table ≠ "" ∧ r.rfrom.column ≠ ""
        ∧ r.rto.table ≠ "" ∧ r.rto.column ≠ "") →
      (PG.generateCompleteSchema ts s).isOk = true)
    ∧ ((∃ t ∈ s.tables, (PG.validateTable t).isOk = false) →
      (PG.generateCompleteSchema ts s).isOk = false) := by
  constructor
  · intro htab hidx href
    obtain ⟨tps, htps⟩ := mapExcept_ok PG.generateCreateTable s.tables
      (fun t ht => generateCreateTable_ok t (htab t ht))
    obtain ⟨ips, hips⟩ := mapExcept_ok PG.generateCreateIndex s.indexes
      (fun i hi => generateCreateIndex_ok i (hidx i hi).1 (hidx i hi).2)
    obtain ⟨rps, hrps⟩ := mapExcept_ok PG.generateAddForeignKey s.refs
      (fun r hr => generateAddForeignKey_ok r (href r hr).1 (href r hr).2.1
        (href r hr).2.2.1 (href r hr).2.2.2)
    simp [PG.generateCompleteSchema, htps, hips, hrps, Bind.bind, Except.bind,
      Except.isOk, Except.toBool]
  · intro ⟨t, ht, hbad⟩
    have hfail := mapExcept_isOk_false PG.generateCreateTable s.tables t ht
      (generateCreateTable_isOk_false t hbad)
    cases hm : PG.mapExcept PG.generateCreateTable s.tables with
    | error e =>
      simp [PG.generateCompleteSchema, hm, Bind.bind, Except.bind,
        Except.isOk, Except.toBool]
    | ok v =>
      rw [hm] at hfail
      simp [Except.isOk, Except.toBool] at hfail

/-- C5 witness: the success side applies to the dangling-reference schema
(whose single table is valid), the failure side to a schema containing a
field-less table. -/
theorem generateCompleteSchema_table_validation_only_witness :
    (PG.generateCompleteSchema "T" danglingRefSchema).isOk = true
      ∧ (PG.generateCompleteSchema "T" invalidTableSchema).isOk = false :=
  ⟨(generateCompleteSchema_table_validation_only "T" danglingRefSchema).1
      (by
        intro t ht
        rw [show danglingRefSchema.tables = [usersTable] from rfl, List.mem_singleton] at ht
        subst ht
        rfl)
      (by decide) (by decide),
    (generateCompleteSchema_table_validation_only "T" invalidTableSchema).2
      ⟨⟨"empty", [], none⟩, by decide, by decide⟩⟩

/-- A file the directory map holds is read back successfully. -/
theorem ZynxManager.readFile_of_has (fs : ZynxManager.FS) (k : String)
    (h : ZynxManager.fsHas fs k = true) :
    ∃ v, ZynxManager.readFile fs k = Except.ok v := by
  unfold ZynxManager.fsHas at h
  rw [List.any_eq_true] at h
  obtain ⟨p, hp, he⟩ := h
  unfold ZynxManager.readFile
  cases hf : List.find? (fun q => q.1 == k) fs with
  | none =>
    exact absurd he (by simpa using List.find?_eq_none.mp hf p hp)
  | some q => exact ⟨q.2, rfl⟩

/-- C9: when a snapshot exists, the computed change set is empty (whatever
snapshot DBML `readFile` returns) and `force` is unset, `generate` returns
an empty-change result and leaves the migrations directory untouched — no
migration file is created and neither snapshot artifact is rewritten
(hence a second no-change `generate` call is a no-op on the directory). -/
theorem generate_no_changes_writes_nothing
    (parse : String → DatabaseSchema) (chk : String → String) (ts : String)
    (fs : ZynxManager.FS) (schemaFileContent : String) (opts : ZynxManager.GenerateOptions)
    (hsnap : ZynxManager.fsHas fs "snapshot.sql" = true)
    (hforce : opts.force = false)
    (hchanges : ∀ d, (if ZynxManager.fsHas fs "snapshot.dbml"
          then ZynxManager.readFile fs "snapshot.dbml"
          else Except.ok schemaFileContent) = Except.ok d →
        SchemaDiffer.compare (parse d) (parse schemaFileContent) = []) :
    ZynxManager.generate parse chk ts fs schemaFileContent opts
      = .ok ({ filename := "", sql := "", changes := [], checksum := "" }, fs) := by
  by_cases hdb : ZynxManager.fsHas fs "snapshot.dbml" = true
  · obtain ⟨v, hv⟩ := ZynxManager.readFile_of_has fs "snapshot.dbml" hdb
    have hc := hchanges v (by simp [hdb, hv])
    simp [ZynxManager.generate, hsnap, hforce, hdb, hv, hc, Bind.bind, Except.bind]
  · have hdb' : ZynxManager.fsHas fs "snapshot.dbml" = false := by simpa using hdb
    have hc := hchanges schemaFileContent (by simp [hdb'])
    simp [ZynxManager.generate, hsnap, hforce, hdb', hc, Bind.bind, Except.bind]

/-- C9 witness: a concrete no-change second call. -/
theorem generate_no_changes_writes_nothing_witness :
    ZynxManager.fsHas [("snapshot.sql", "x"), ("snapshot.dbml", "y")] "snapshot.sql" = true
      ∧ ZynxManager.generate (fun _ => (⟨none, [], [], []⟩ : DatabaseSchema)) (fun _ => "c")
          "T" [("snapshot.sql", "x"), ("snapshot.dbml", "y")] "z" {}
        = .ok ({ filename := "", sql := "", changes := [], checksum := "" },
            [("snapshot.sql", "x"), ("snapshot.dbml", "y")]) :=
  ⟨by decide,
    generate_no_changes_writes_nothing (fun _ => (⟨none, [], [], []⟩ : DatabaseSchema))
      (fun _ => "c") "T" [("snapshot.sql", "x"), ("snapshot.dbml", "y")] "z" {}
      (by decide) (by decide) (fun _ _ => rfl)⟩

/-! ## Lemmas: run/pending computation -/

namespace ZynxManager

theorem mem_sinsertBy (num : α → Nat) (x : α) (l : List α) :
    ∀ y, y ∈ sinsertBy num x l → y = x ∨ y ∈ l := by
  induction l with
  | nil =>
    intro y h
    unfold sinsertBy at h
    exact Or.inl (List.mem_singleton.mp h)
  | cons z zs ih =>
    intro y h
    unfold sinsertBy at h
    by_cases hc : num z < num x
    · rw [if_pos hc] at h
      rcases List.mem_cons.mp h with rfl | h'
      · exact Or.inr (List.mem_cons_self _ _)
      · rcases ih y h' with h2 | h2
        · exact Or.inl h2
        · exact Or.inr (List.mem_cons_of_mem _ h2)
    · rw [if_neg hc] at h
      rcases List.mem_cons.mp h with rfl | h'
      · exact Or.inl rfl
      · exact Or.inr h'

theorem pairwise_sinsertBy (num : α → Nat) (x : α) (l : List α)
    (h : List.Pairwise (fun a b => num a ≤ num b) l) :
    List.Pairwise (fun a b => num a ≤ num b) (sinsertBy num x l) := by
  induction l with
  | nil => exact List.pairwise_singleton _ x
  | cons z zs ih =>
    rw [List.pairwise_cons] at h
    unfold sinsertBy
    by_cases hc : num z < num x
    · rw [if_pos hc, List.pairwise_cons]
      constructor
      · intro y hy
        rcases mem_sinsertBy num x zs y hy with rfl | h2
        · omega
        · exact h.1 y h2
      · exact ih h.2
    · rw [if_neg hc, List.pairwise_cons]
      constructor
      · intro y hy
        rcases List.mem_cons.mp hy with rfl | h2
        · omega
        · have := h.1 y h2
          omega
      · rw [List.pairwise_cons]
        exact h

theorem pairwise_sortByNum (num : α → Nat) (l : List α) :
    List.Pairwise (fun a b => num a ≤ num b) (sortByNum num l) := by
  unfold sortByNum
  induction l with
  | nil => exact List.Pairwise.nil
  | cons x xs ih => exact pairwise_sinsertBy num x _ ih

theorem getMigrationFiles_sorted (chk : String → String) (raw : List (String × String)) :
    List.Pairwise (fun a b : MigrationFile => a.number ≤ b.number)
      (getMigrationFiles chk raw) := by
  unfold getMigrationFiles
  exact pairwise_sortByNum _ _

theorem getCurrent_getD (st : DBState) :
    (getCurrentMigration st).getD 0 = st.ledger.foldl (fun a e => max a e.number) 0 := by
  unfold getCurrentMigration
  by_cases h : st.ledger.foldl (fun a e => max a e.number) 0 = 0
  · simp [h]
  · simp [h]

theorem init_le_foldl_max : ∀ (l : List LedgerEntry) (a : Nat),
    a ≤ l.foldl (fun x e => max x e.number) a
  | [], _ => Nat.le_refl _
  | e :: es, a => Nat.le_trans (Nat.le_max_left a e.number) (init_le_foldl_max es _)

theorem mem_le_foldl_max : ∀ (l : List LedgerEntry) (e : LedgerEntry), e ∈ l →
    ∀ (a : Nat), e.number ≤ l.foldl (fun x e => max x e.number) a
  | [], e, he, _ => absurd he (List.not_mem_nil e)
  | x :: xs, e, he, a => by
    rcases List.mem_cons.mp he with rfl | h
    · exact Nat.le_trans (Nat.le_max_right a e.number) (init_le_foldl_max xs _)
    · exact mem_le_foldl_max xs e h _

theorem ledger_le_cur (st : DBState) (e : LedgerEntry) (he : e ∈ st.ledger) :
    e.number ≤ (getCurrentMigration st).getD 0 := by
  rw [getCurrent_getD]
  exact mem_le_foldl_max st.ledger e he 0

theorem execStmts_all_ok (ok : String → Bool) (hok : ∀ s', ok s' = true) :
    ∀ (ss : List String) (st : DBState),
    execStmts ok st ss = ({ st with executed := st.executed ++ ss }, none)
  | [], st => by simp [execStmts]
  | s :: ss, st => by
    rw [execStmts, if_pos (hok s), execStmts_all_ok ok hok ss]
    simp

theorem execMigration_ok_shape (ok : String → Bool) (st : DBState) (m : MigrationFile)
    (hok : ∀ s', ok s' = true)
    (hfresh : ∀ e ∈ st.ledger, e.number ≠ m.number) :
    execMigration ok st m
      = (⟨st.ledger ++ [toLedger m], st.executed ++ migrationStatements m.content⟩, none) := by
  unfold execMigration
  rw [execStmts_all_ok ok hok]
  have hdup : st.ledger.any (fun e => e.number == m.number) = false := by
    rw [List.any_eq_false]
    intro e he
    simpa using hfresh e he
  simp [hdup, toLedger]

theorem runLoop_all_ok (ok : String → Bool) (t : Nat) (ht : t ≠ 0)
    (hok : ∀ s', ok s' = true) :
    ∀ (pending : List MigrationFile) (st : DBState) (applied : List AppliedStatus),
    List.Pairwise (fun a b : MigrationFile => a.number < b.number) pending →
    (∀ e ∈ st.ledger, ∀ m ∈ pending, e.number < m.number) →
    runLoop ok { target := some t } st applied pending
      = (applied ++ (pending.takeWhile (fun m => !(decide (t < m.number)))).map toStatus,
         applyAll ok st (pending.takeWhile (fun m => !(decide (t < m.number)))), none)
  | [], st, applied, _, _ => by simp [runLoop, applyAll]
  | m :: rest, st, applied, hpw, hledger => by
    rw [List.pairwise_cons] at hpw
    have htb : targetBreak { target := some t } m.number = decide (t < m.number) := by
      simp [targetBreak, ht]
    by_cases hb : t < m.number
    · have h1 : (m :: rest).takeWhile (fun m => !(decide (t < m.number))) = [] := by
        simp [List.takeWhile_cons, hb]
      rw [runLoop, if_neg (by simp), if_pos (by simp [htb, hb]), h1]
      simp [applyAll]
    · have hfresh : ∀ e ∈ st.ledger, e.number ≠ m.number :=
        fun e he => Nat.ne_of_lt (hledger e he m (List.mem_cons_self m rest))
      have hshape := execMigration_ok_shape ok st m hok hfresh
      have h1 : (m :: rest).takeWhile (fun m => !(decide (t < m.number)))
          = m :: rest.takeWhile (fun m => !(decide (t < m.number))) := by
        simp [List.takeWhile_cons, hb]
      have hinv : ∀ e ∈ (⟨st.ledger ++ [toLedger m],
          st.executed ++ migrationStatements m.content⟩ : DBState).ledger,
          ∀ m' ∈ rest, e.number < m'.number := by
        intro e he m' hm'
        rcases List.mem_append.mp he with h2 | h2
        · exact hledger e h2 m' (List.mem_cons_of_mem m hm')
        · rw [List.mem_singleton.mp h2]
          exact hpw.1 m' hm'
      have happ : applyAll ok st (m :: rest.takeWhile (fun m => !(decide (t < m.number))))
          = applyAll ok (⟨st.ledger ++ [toLedger m],
              st.executed ++ migrationStatements m.content⟩ : DBState)
            (rest.takeWhile (fun m => !(decide (t < m.number)))) := by
        rw [applyAll, hshape]
      rw [runLoop, if_neg (by simp), if_neg (by simp [htb, hb]), hshape, h1, happ,
        List.map_cons]
      have happ2 : applied ++ toStatus m
            :: (rest.takeWhile (fun m => !(decide (t < m.number)))).map toStatus
          = (applied ++ [toStatus m])
            ++ (rest.takeWhile (fun m => !(decide (t < m.number)))).map toStatus := by
        simp
      rw [happ2]
      exact runLoop_all_ok ok t ht hok rest _ (applied ++ [toStatus m]) hpw.2 hinv

theorem takeWhile_eq_filter_sorted (t : Nat) :
    ∀ (l : List MigrationFile),
    List.Pairwise (fun a b : MigrationFile => a.number ≤ b.number) l →
    l.takeWhile (fun m => !(decide (t < m.number)))
      = l.filter (fun m => !(decide (t < m.number)))
  | [], _ => rfl
  | x :: xs, h => by
    rw [List.pairwise_cons] at h
    by_cases hx : t < x.number
    · have h1 : xs.filter (fun m => !(decide (t < m.number))) = [] := by
        rw [List.filter_eq_nil_iff]
        intro y hy
        have := h.1 y hy
        simp only [Bool.not_eq_true', decide_eq_false_iff_not, not_not]
        omega
      simp [List.takeWhile_cons, List.filter_cons, hx, h1]
    · rw [List.takeWhile_cons, List.filter_cons]
      simp only [hx, decide_False, Bool.not_false, if_true]
      rw [takeWhile_eq_filter_sorted t xs h.2]

theorem map_filter_factor (num : α → Nat) (Q : Nat → Bool) :
    ∀ (l : List α),
    (l.filter (fun m => Q (num m))).map num = (l.map num).filter Q
  | [] => rfl
  | x :: xs => by
    rw [List.filter_cons, List.map_cons, List.filter_cons]
    by_cases h : Q (num x)
    · simp [h, map_filter_factor num Q xs]
    · simp [h, map_filter_factor num Q xs]

theorem run_target_characterization (chk : String → String) (ok : String → Bool)
    (st0 : DBState) (raw : List (String × String)) (t : Nat)
    (ht : t ≠ 0) (hok : ∀ s', ok s' = true)
    (hnd : ((getMigrationFiles chk raw).map (·.number)).Nodup) :
    (run chk ok st0 raw { target := some t }).1.success = true
    ∧ (run chk ok st0 raw { target := some t }).1.migrationsApplied.map (·.number)
        = ((getMigrationFiles chk raw).map (·.number)).filter
            (fun nb => decide ((getCurrentMigration st0).getD 0 < nb ∧ nb ≤ t))
    ∧ List.Pairwise (· < ·)
        ((run chk ok st0 raw { target := some t }).1.migrationsApplied.map (·.number)) := by
  have hsorted := getMigrationFiles_sorted chk raw
  have hnum_le : List.Pairwise (· ≤ ·) ((getMigrationFiles chk raw).map (·.number)) :=
    List.pairwise_map.mpr hsorted
  have hnum_lt : List.Pairwise (· < ·) ((getMigrationFiles chk raw).map (·.number)) :=
    (hnum_le.and hnd).imp (fun h => lt_of_le_of_ne h.1 h.2)
  have hfiles_lt : List.Pairwise (fun a b : MigrationFile => a.number < b.number)
      (getMigrationFiles chk raw) := List.pairwise_map.mp hnum_lt
  by_cases hp : (getMigrationFiles chk raw).filter
      (fun m => decide ((getCurrentMigration st0).getD 0 < m.number)) = []
  · have hrun : run chk ok st0 raw { target := some t }
        = ({ success := true, migrationsApplied := [], errors := [],
             currentMigration := (getCurrentMigration st0).getD 0 }, st0) := by
      simp [run, hp]
    rw [hrun]
    refine ⟨rfl, ?_, List.Pairwise.nil⟩
    rw [List.map_nil]
    symm
    rw [List.filter_eq_nil_iff]
    intro nb hnb
    rcases List.mem_map.mp hnb with ⟨m, hm, rfl⟩
    have := List.filter_eq_nil_iff.mp hp m hm
    simp only [decide_eq_true_eq] at this ⊢
    omega
  · have hpend_lt : List.Pairwise (fun a b : MigrationFile => a.number < b.number)
        ((getMigrationFiles chk raw).filter
          (fun m => decide ((getCurrentMigration st0).getD 0 < m.number))) :=
      hfiles_lt.filter _
    have hledinv : ∀ e ∈ st0.ledger, ∀ m ∈ (getMigrationFiles chk raw).filter
        (fun m => decide ((getCurrentMigration st0).getD 0 < m.number)),
        e.number < m.number := by
      intro e he m hm
      have h1 := ledger_le_cur st0 e he
      have h2 := List.of_mem_filter hm
      simp only [decide_eq_true_eq] at h2
      omega
    have hloop := runLoop_all_ok ok t ht hok
      ((getMigrationFiles chk raw).filter
        (fun m => decide ((getCurrentMigration st0).getD 0 < m.number)))
      st0 [] hpend_lt hledinv
    have hrun1 : (run chk ok st0 raw { target := some t }).1.migrationsApplied
          = (((getMigrationFiles chk raw).filter
              (fun m => decide ((getCurrentMigration st0).getD 0 < m.number))).takeWhile
              (fun m => !(decide (t < m.number)))).map toStatus
        ∧ (run chk ok st0 raw { target := some t }).1.success = true := by
      simp only [run]
      rw [if_neg (by simp [hp]), if_neg (by simp), hloop]
      simp
    have htw : ((getMigrationFiles chk raw).filter
          (fun m => decide ((getCurrentMigration st0).getD 0 < m.number))).takeWhile
          (fun m => !(decide (t < m.number)))
        = ((getMigrationFiles chk raw).filter
          (fun m => decide ((getCurrentMigration st0).getD 0 < m.number))).filter
          (fun m => !(decide (t < m.number))) :=
      takeWhile_eq_filter_sorted t _ (hpend_lt.imp Nat.le_of_lt)
    have hmapnum : (run chk ok st0 raw { target := some t }).1.migrationsApplied.map (·.number)
        = ((getMigrationFiles chk raw).map (·.number)).filter
            (fun nb => decide ((getCurrentMigration st0).getD 0 < nb ∧ nb ≤ t)) := by
      rw [hrun1.1, htw, List.filter_filter]
      rw [List.map_map]
      have hcomp : ((fun x : AppliedStatus => x.number) ∘ toStatus)
          = (fun m : MigrationFile => m.number) := by
        funext m
        rfl
      rw [hcomp]
      rw [map_filter_factor (fun m : MigrationFile => m.number)
        (fun nb => !(decide (t < nb)) && decide ((getCurrentMigration st0).getD 0 < nb))]
      apply List.filter_congr
      intro nb _
      by_cases h1 : t < nb <;>
        by_cases h2 : (getCurrentMigration st0).getD 0 < nb <;>
        simp [h1, h2] <;> omega
    refine ⟨hrun1.2, hmapnum, ?_⟩
    rw [hmapnum]
    exact hnum_lt.filter _

/-- C2: against a ledger at version 3 with on-disk migrations 0001..0005
and target 4, `run` applies exactly migration 4 and `getStatus` afterwards
reports current version 4 with pending set [0005]; in general (all
statements succeeding, non-zero target, distinct file numbers) the applied
migrations are exactly the on-disk numbers strictly above the ledger
maximum and at most the target, in strictly ascending order. -/
theorem run_target_pending_ascending :
    ((ZynxManager.run ZynxManager.chkK ZynxManager.okAll ZynxManager.ledgerAt3
          ZynxManager.filesTo5 { target := some 4 }).1.migrationsApplied.map (·.number) = [4]
      ∧ (ZynxManager.run ZynxManager.chkK ZynxManager.okAll ZynxManager.ledgerAt3
          ZynxManager.filesTo5 { target := some 4 }).1.success = true
      ∧ (ZynxManager.getStatus ZynxManager.chkK
            (ZynxManager.run ZynxManager.chkK ZynxManager.okAll ZynxManager.ledgerAt3
              ZynxManager.filesTo5 { target := some 4 }).2
            ZynxManager.filesTo5).currentVersion = 4
      ∧ (ZynxManager.getStatus ZynxManager.chkK
            (ZynxManager.run ZynxManager.chkK ZynxManager.okAll ZynxManager.ledgerAt3
              ZynxManager.filesTo5 { target := some 4 }).2
            ZynxManager.filesTo5).pendingMigrations.map (·.filename) = ["0005.sql"])
    ∧ ∀ (chk : String → String) (ok : String → Bool) (st0 : ZynxManager.DBState)
        (raw : List (String × String)) (t : Nat),
        t ≠ 0 → (∀ s', ok s' = true) →
        (((ZynxManager.getMigrationFiles chk raw).map (·.number)).Nodup) →
        (ZynxManager.run chk ok st0 raw { target := some t }).1.success = true
        ∧ (ZynxManager.run chk ok st0 raw { target := some t }).1.migrationsApplied.map (·.number)
            = ((ZynxManager.getMigrationFiles chk raw).map (·.number)).filter
                (fun nb => decide ((ZynxManager.getCurrentMigration st0).getD 0 < nb ∧ nb ≤ t))
        ∧ List.Pairwise (· < ·)
            ((ZynxManager.run chk ok st0 raw
              { target := some t }).1.migrationsApplied.map (·.number)) :=
  ⟨⟨by decide, by decide, by decide, by decide⟩,
    fun chk ok st0 raw t ht hok hnd =>
      ZynxManager.run_target_characterization chk ok st0 raw t ht hok hnd⟩

/-- C2 witness: the general clause applied to the concrete scenario. -/
theorem run_target_pending_ascending_witness :
    ((4 : Nat) ≠ 0
      ∧ (((ZynxManager.getMigrationFiles ZynxManager.chkK ZynxManager.filesTo5).map
          (·.number)).Nodup))
    ∧ (ZynxManager.run ZynxManager.chkK ZynxManager.okAll ZynxManager.ledgerAt3
        ZynxManager.filesTo5 { target := some 4 }).1.success = true :=
  ⟨⟨by decide, by decide⟩,
    (run_target_pending_ascending.2 ZynxManager.chkK ZynxManager.okAll ZynxManager.ledgerAt3
      ZynxManager.filesTo5 4 (by decide) (fun _ => rfl) (by decide)).1⟩

/-! ## Lemmas: transactional rollback on failure -/

theorem execStmts_find (ok : String → Bool) :
    ∀ (ss : List String) (st : DBState) (e : String),
    ss.find? (fun s => !(ok s)) = some e →
    ∃ st1, execStmts ok st ss = (st1, some e)
  | [], _, _, h => by simp at h
  | s :: ss, st, e, h => by
    by_cases hs : ok s = true
    · rw [List.find?_cons] at h
      simp only [hs, Bool.not_true] at h
      rw [execStmts, if_pos hs]
      exact execStmts_find ok ss _ e h
    · have hs' : ok s = false := by simpa using hs
      rw [List.find?_cons] at h
      simp only [hs', Bool.not_false] at h
      rw [execStmts, if_neg (by simp [hs'])]
      exact ⟨st, by simpa using h⟩

theorem execMigration_firstFail (ok : String → Bool) (st : DBState) (m : MigrationFile)
    (e : String)
    (h : (migrationStatements m.content).find? (fun s => !(ok s)) = some e) :
    execMigration ok st m = (st, some e) := by
  obtain ⟨st1, hst1⟩ := execStmts_find ok (migrationStatements m.content) st e h
  unfold execMigration
  rw [hst1]

theorem execStmts_none (ok : String → Bool) :
    ∀ (ss : List String) (st st1 : DBState),
    execStmts ok st ss = (st1, none) →
    st1 = { st with executed := st.executed ++ ss }
  | [], st, st1, h => by
    rw [execStmts] at h
    have h1 : st = st1 := congrArg Prod.fst h
    simp [← h1]
  | s :: ss, st, st1, h => by
    rw [execStmts] at h
    split at h
    · have := execStmts_none ok ss _ st1 h
      rw [this]
      simp
    · simp at h

theorem execMigration_none_shape (ok : String → Bool) (st : DBState) (m : MigrationFile)
    (st' : DBState) (h : execMigration ok st m = (st', none)) :
    st' = ⟨st.ledger ++ [ZynxManager.toLedger m],
           st.executed ++ migrationStatements m.content⟩ := by
  unfold execMigration at h
  cases hex : execStmts ok st (migrationStatements m.content) with
  | mk st1 r =>
    rw [hex] at h
    cases r with
    | none =>
      have h' : (if st1.ledger.any (fun e => e.number == m.number) then
          ((st, some ("duplicate key value violates unique constraint: " ++ m.filename))
            : DBState × Option String)
        else ({ st1 with ledger := st1.ledger ++ [⟨m.number, m.filename, m.checksum⟩] },
            none)) = (st', none) := h
      by_cases hdup : st1.ledger.any (fun e => e.number == m.number) = true
      · rw [if_pos hdup] at h'
        exact absurd (congrArg Prod.snd h') (by simp)
      · rw [if_neg hdup] at h'
        have h2 : st' = { st1 with
            ledger := st1.ledger ++ [⟨m.number, m.filename, m.checksum⟩] } :=
          (congrArg Prod.fst h').symm
        have h1 := execStmts_none ok (migrationStatements m.content) st st1 hex
        rw [h2, h1]
        simp [ZynxManager.toLedger]
    | some e => simp at h

theorem allSucceed_cons_elim (ok : String → Bool) (st : DBState) (d : MigrationFile)
    (ds : List MigrationFile) (h : allSucceed ok st (d :: ds) = true) :
    ∃ st', execMigration ok st d = (st', none) ∧ allSucceed ok st' ds = true := by
  rw [allSucceed] at h
  cases he : execMigration ok st d with
  | mk st' r =>
    rw [he] at h
    cases r with
    | none => exact ⟨st', rfl, h⟩
    | some e => simp at h

theorem runLoop_skip_done (ok : String → Bool) :
    ∀ (done : List MigrationFile) (st : DBState) (applied : List AppliedStatus)
      (tail : List MigrationFile),
    allSucceed ok st done = true →
    runLoop ok {} st applied (done ++ tail)
      = runLoop ok {} (applyAll ok st done) (applied ++ done.map toStatus) tail
  | [], st, applied, tail, _ => by simp [applyAll]
  | d :: ds, st, applied, tail, h => by
    obtain ⟨st', hd, hrest⟩ := allSucceed_cons_elim ok st d ds h
    have happ : applyAll ok st (d :: ds) = applyAll ok st' ds := by
      rw [applyAll, hd]
    rw [List.cons_append, runLoop, if_neg (by simp), if_neg (by simp [targetBreak]), hd]
    show runLoop ok {} st' (applied ++ [toStatus d]) (ds ++ tail) = _
    rw [runLoop_skip_done ok ds st' (applied ++ [toStatus d]) tail hrest, happ]
    simp

theorem applyAll_shape (ok : String → Bool) :
    ∀ (done : List MigrationFile) (st : DBState),
    allSucceed ok st done = true →
    (applyAll ok st done).ledger = st.ledger ++ done.map ZynxManager.toLedger
    ∧ (applyAll ok st done).executed
        = st.executed ++ (done.map (fun d => migrationStatements d.content)).flatten
  | [], st, _ => by simp [applyAll]
  | d :: ds, st, h => by
    obtain ⟨st', hd, hrest⟩ := allSucceed_cons_elim ok st d ds h
    have hshape := execMigration_none_shape ok st d st' hd
    have ih := applyAll_shape ok ds st' hrest
    have happ : applyAll ok st (d :: ds) = applyAll ok st' ds := by
      rw [applyAll, hd]
    rw [happ]
    constructor
    · rw [ih.1, hshape]
      simp
    · rw [ih.2, hshape]
      simp

end ZynxManager

/-- C3: if some statement of the pending migration `m` fails during `run`
(after the migrations `done` committed earlier in the same invocation), the
run stops at `m` and reports failure with the successful prefix; the final
database state is exactly the state after `done` — `m`'s earlier
statements and its ledger row are rolled back together, so the ledger holds
only the old rows plus `done`'s rows and the executed-statement log only
the old statements plus `done`'s statements. -/
theorem run_transaction_rollback (chk : String → String) (ok : String → Bool)
    (st0 : ZynxManager.DBState) (raw : List (String × String))
    (done : List ZynxManager.MigrationFile) (m : ZynxManager.MigrationFile)
    (rest : List ZynxManager.MigrationFile) (e : String)
    (hpend : (ZynxManager.getMigrationFiles chk raw).filter
        (fun f => decide ((ZynxManager.getCurrentMigration st0).getD 0 < f.number))
      = done ++ m :: rest)
    (hdone : ZynxManager.allSucceed ok st0 done = true)
    (hfail : (ZynxManager.migrationStatements m.content).find? (fun s => !(ok s)) = some e) :
    ZynxManager.run chk ok st0 raw {}
      = ({ success := false,
           migrationsApplied := done.map ZynxManager.toStatus,
           errors := [e],
           currentMigration :=
             (ZynxManager.getCurrentMigration (ZynxManager.applyAll ok st0 done)).getD 0 },
         ZynxManager.applyAll ok st0 done)
    ∧ (ZynxManager.applyAll ok st0 done).ledger
        = st0.ledger ++ done.map ZynxManager.toLedger
    ∧ (ZynxManager.applyAll ok st0 done).executed
        = st0.executed
          ++ (done.map (fun d => ZynxManager.migrationStatements d.content)).flatten := by
  have hloopfail : ZynxManager.runLoop ok {} (ZynxManager.applyAll ok st0 done)
      ([] ++ done.map ZynxManager.toStatus) (m :: rest)
      = (done.map ZynxManager.toStatus, ZynxManager.applyAll ok st0 done, some e) := by
    rw [ZynxManager.runLoop, if_neg (by simp), if_neg (by simp [ZynxManager.targetBreak]),
      ZynxManager.execMigration_firstFail ok _ m e hfail]
    simp
  have hloop : ZynxManager.runLoop ok {} st0 [] (done ++ m :: rest)
      = (done.map ZynxManager.toStatus, ZynxManager.applyAll ok st0 done, some e) := by
    rw [ZynxManager.runLoop_skip_done ok done st0 [] (m :: rest) hdone, hloopfail]
  refine ⟨?_, (ZynxManager.applyAll_shape ok done st0 hdone).1,
    (ZynxManager.applyAll_shape ok done st0 hdone).2⟩
  simp only [ZynxManager.run]
  rw [hpend, if_neg (by cases done <;> simp), if_neg (by simp), hloop]

/-- C3 witness: migration 2 of the concrete directory fails on its second
statement; the run applies migration 1, stops, and rolls migration 2 back. -/
theorem run_transaction_rollback_witness :
    ((ZynxManager.getMigrationFiles ZynxManager.chkK ZynxManager.filesWithBad).filter
        (fun f => decide ((ZynxManager.getCurrentMigration ⟨[], []⟩).getD 0 < f.number))
      = [ZynxManager.badMig1] ++ ZynxManager.badMig2 :: [ZynxManager.badMig3])
    ∧ (ZynxManager.run ZynxManager.chkK ZynxManager.okExceptBad ⟨[], []⟩
        ZynxManager.filesWithBad {}).1.success = false :=
  ⟨by decide, by
    have h := run_transaction_rollback ZynxManager.chkK ZynxManager.okExceptBad ⟨[], []⟩
      ZynxManager.filesWithBad [ZynxManager.badMig1] ZynxManager.badMig2
      [ZynxManager.badMig3] " BAD " (by decide) (by decide) (by decide)
    rw [h.1]⟩

/-- C1 witness: the ordering theorem applied to the concrete change list of
the counterexample schemas. -/
theorem orderChangesByDependency_sorts_and_permutes_witness :
    List.Pairwise (fun a b : SchemaChange => rankOf a.type ≤ rankOf b.type)
        (SchemaDiffer.orderChangesByDependency (SchemaDiffer.compare exSchemaOld exSchemaNew))
      ∧ List.Perm
          (SchemaDiffer.orderChangesByDependency (SchemaDiffer.compare exSchemaOld exSchemaNew))
          (SchemaDiffer.compare exSchemaOld exSchemaNew) :=
  orderChangesByDependency_sorts_and_permutes (SchemaDiffer.compare exSchemaOld exSchemaNew)

/-- C6 witness: the determinism criterion applied at equal timestamps. -/
theorem generateAlterStatements_deterministic_iff_witness :
    SchemaDiffer.generateAlterStatements "2024-01-01T00:00:00.000Z" exSchemaOld exSchemaNew
      = SchemaDiffer.generateAlterStatements "2024-01-01T00:00:00.000Z" exSchemaOld exSchemaNew :=
  (generateAlterStatements_deterministic_iff exSchemaOld exSchemaNew
    "2024-01-01T00:00:00.000Z" "2024-01-01T00:00:00.000Z").mpr (Or.inr rfl)
